import Mathlib

/-!
Verification of the WeatherAlert pipeline (`src/function_app.py`): a shallow
embedding of the forecast-retrieval-and-normalization pipeline, the icon
resolver/cache, the report renderer and the run entry point, together with
proofs of the specified properties.

Modelling conventions:
* Python dictionaries of the provider JSON are embedded as structures whose
  fields are `Option`-valued (`none` = key absent); `dict.get(k, d)` becomes
  `Option.getD`.
* Python floats are idealized as exact rationals (`ℚ`); `int(...)` truncation
  toward zero is `ratTrunc`, `round(x, 1)` is round-half-to-even `round1`.
* HTTP calls are oracles passed in as functions; a `RequestException`
  (network failure or a 4xx/5xx raised by `raise_for_status`) is the `fail`
  or `none` case of the oracle's result.
* `list.sort` is a stable sort; it is embedded as `List.insertionSort`, which
  is extensionally equal to any stable sort by a total preorder on keys.
-/

/-- Base URL constant from the source. -/
def ACCUWEATHER_BASE_URL : String := "http://dataservice.accuweather.com"

/-- Floor of a rational, computable (`Int.fdiv` of numerator by denominator). -/
def ratFloor (q : ℚ) : Int := q.num.fdiv q.den

theorem ratFloor_eq_floor (q : ℚ) : ratFloor q = ⌊q⌋ := by
  rw [ratFloor, Int.fdiv_eq_ediv _ (by positivity), Rat.floor_def]

/-- Truncation toward zero, the semantics of Python's `int()` on a number. -/
def ratTrunc (q : ℚ) : Int := if 0 ≤ q then ratFloor q else -(ratFloor (-q))

/-- Round to the nearest integer, ties to even: the semantics of Python's
builtin `round` (idealized over exact rationals). -/
def pyRoundInt (q : ℚ) : Int :=
  let f := ratFloor q
  let r := q - f
  if r < 1/2 then f
  else if 1/2 < r then f + 1
  else if f % 2 = 0 then f else f + 1

/-- Python `round(x, 1)`: round to one decimal place (ties to even). -/
def round1 (q : ℚ) : ℚ := (pyRoundInt (10 * q) : ℚ) / 10

/-- Python `str.zfill(w)`: left-pad with zeros to width `w`, keeping a
leading sign in place. -/
def pyZfill (s : String) (w : Nat) : String :=
  if w ≤ s.length then s
  else
    match s.data with
    | '-' :: rest => "-" ++ ⟨List.replicate (w - s.length) '0'⟩ ++ ⟨rest⟩
    | '+' :: rest => "+" ++ ⟨List.replicate (w - s.length) '0'⟩ ++ ⟨rest⟩
    | l => ⟨List.replicate (w - s.length) '0' ++ l⟩

/-- Zero-padding to two digits, as in `str(icon_code).zfill(2)`. -/
def zfill2 (s : String) : String := pyZfill s 2

/-- Python `str.capitalize()`: first character upper-cased, the rest
lower-cased (ASCII; provider phrases are ASCII). -/
def pyCapitalize (s : String) : String :=
  match s.data with
  | [] => ""
  | c :: rest => ⟨c.toUpper :: rest.map Char.toLower⟩

/-- Python `str(x)` for an optional integer (`str(None) = "None"`). -/
def pyStrOptInt : Option Int → String
  | none => "None"
  | some v => toString v

/-- Python `str(x)` for an optional string (`str(None) = "None"`). -/
def pyStrOptStr : Option String → String
  | none => "None"
  | some s => s

/-- Input to `get_wind_direction`: the `Degrees` field may be absent
(`none`), a number, or a value `int()` cannot convert (`nonnum`, which makes
the source raise and catch `ValueError`/`TypeError`). -/
inductive WindInput
  | none
  | num (d : Int)
  | nonnum
deriving DecidableEq

/-- The sixteen compass labels, in source order. -/
def directions : List String :=
  ["N", "NNE", "NE", "ENE", "E", "ESE", "SE", "SSE",
   "S", "SSW", "SW", "WSW", "W", "WNW", "NW", "NNW"]

/-- Embedding of `get_wind_direction` (source lines 26-40):
`directions[int((degrees + 11.25) / 22.5) % 16]`, with `"N/A"` for an absent
or non-numeric input. -/
def get_wind_direction : WindInput → String
  | WindInput.none => "N/A"
  | WindInput.nonnum => "N/A"
  | WindInput.num d =>
    directions.getD (((ratTrunc (((d : ℚ) + 11.25) / 22.5)).emod 16).toNat) "N/A"

/-- Days since the Unix epoch to a civil (y, m, d) date, proleptic Gregorian
(the computation performed by `datetime.fromtimestamp(..., tz=utc)`). -/
def civilFromDays (z : Int) : Int × Int × Int :=
  let z' := z + 719468
  let era : Int := z'.fdiv 146097
  let doe : Int := z' - era * 146097
  let yoe : Int := (doe - doe.fdiv 1460 + doe.fdiv 36524 - doe.fdiv 146096).fdiv 365
  let y : Int := yoe + era * 400
  let doy : Int := doe - (365 * yoe + yoe.fdiv 4 - yoe.fdiv 100)
  let mp : Int := (5 * doy + 2).fdiv 153
  let d : Int := doy - (153 * mp + 2).fdiv 5 + 1
  let m : Int := mp + (if mp < 10 then 3 else -9)
  (y + (if m ≤ 2 then 1 else 0), m, d)

/-- Section `strftime("%Y-%m-%d")` on a UTC datetime built from an epoch. -/
def epochToDateStr (e : Int) : String :=
  let days := e.fdiv 86400
  let c := civilFromDays days
  pyZfill (toString c.1) 4 ++ "-" ++ pyZfill (toString c.2.1) 2 ++ "-" ++ pyZfill (toString c.2.2) 2

/-- Section `strftime("%A")`: the weekday name of a UTC epoch timestamp
(1970-01-01 was a Thursday). -/
def weekdayName (e : Int) : String :=
  ["Thursday", "Friday", "Saturday", "Sunday", "Monday", "Tuesday", "Wednesday"].getD
    (((e.fdiv 86400).emod 7).toNat) ""

/-- Timezone parsed from an ISO-8601 offset suffix: `none` is a naive
datetime, `some (neg, hh, mm)` a fixed offset. -/
def TzInfo : Type := Option (Bool × Nat × Nat)

/-- Value of two decimal digit characters, if both are digits. -/
def twoDigits (a b : Char) : Option Nat :=
  if a.isDigit ∧ b.isDigit then some ((a.toNat - 48) * 10 + (b.toNat - 48)) else none

/-- Parse the offset suffix of an ISO-8601 string: empty (naive) or
`±HH:MM`. Anything else is a `ValueError` (`none`). -/
def isoTail : List Char → Option TzInfo
  | [] => some Option.none
  | s :: h1 :: h2 :: ':' :: m1 :: m2 :: [] =>
    match twoDigits h1 h2, twoDigits m1 m2 with
    | some hh, some mm =>
      if (s = '+' ∨ s = '-') ∧ hh < 24 ∧ mm < 60 then some (some (s = '-', hh, mm))
      else Option.none
    | _, _ => Option.none
  | _ => Option.none

/-- Embedding of `datetime.fromisoformat` restricted to the provider's shape
`YYYY-MM-DDTHH:MM:SS[±HH:MM]`, keeping only what `strftime("%I:%M%p %Z")`
reads: hour, minute and the timezone. `none` models `ValueError`. -/
def fromisoformatHM (s : String) : Option (Nat × Nat × TzInfo) :=
  match s.data with
  | y1 :: y2 :: y3 :: y4 :: '-' :: mo1 :: mo2 :: '-' :: d1 :: d2 :: _ :: h1 :: h2 :: ':'
      :: mi1 :: mi2 :: ':' :: s1 :: s2 :: rest =>
    match twoDigits y1 y2, twoDigits y3 y4, twoDigits mo1 mo2, twoDigits d1 d2,
        twoDigits h1 h2, twoDigits mi1 mi2, twoDigits s1 s2 with
    | some _, some _, some mo, some dd, some hh, some mi, some ss =>
      if 1 ≤ mo ∧ mo ≤ 12 ∧ 1 ≤ dd ∧ dd ≤ 31 ∧ hh < 24 ∧ mi < 60 ∧ ss < 60 then
        (isoTail rest).map (fun tz => (hh, mi, tz))
      else none
    | _, _, _, _, _, _, _ => none
  | _ => none

/-- CPython's `tzname` rendering of a fixed offset: `"UTC"` for a zero
offset, otherwise `"UTC±HH:MM"`; a naive datetime renders `%Z` as `""`. -/
def tzName : TzInfo → String
  | Option.none => ""
  | some (neg, hh, mm) =>
    if hh = 0 ∧ mm = 0 then "UTC"
    else "UTC" ++ (if neg then "-" else "+") ++ pyZfill (toString hh) 2 ++ ":" ++ pyZfill (toString mm) 2

/-- Section `strftime("%I:%M%p %Z")`: zero-padded 12-hour clock, minutes,
AM/PM marker and timezone name. -/
def strftimeIMp (h m : Nat) (tz : TzInfo) : String :=
  let h12 := if h % 12 = 0 then 12 else h % 12
  pyZfill (toString h12) 2 ++ ":" ++ pyZfill (toString m) 2 ++
    (if h < 12 then "AM" else "PM") ++ " " ++ tzName tz

/-- Formatted sunrise/sunset pair (source lines 133-146): both parses run in
one `try`, so a parse failure of either string degrades both to `"N/A"`; an
absent string degrades only itself. -/
def formatSunTimes (rise? set? : Option String) : String × String :=
  let riseR : Option (Option (Nat × Nat × TzInfo)) :=
    match rise? with
    | some s => (fromisoformatHM s).map some
    | none => some none
  let setR : Option (Option (Nat × Nat × TzInfo)) :=
    match set? with
    | some s => (fromisoformatHM s).map some
    | none => some none
  match riseR, setR with
  | some r, some t =>
    ((match r with | some (h, m, tz) => strftimeIMp h m tz | none => "N/A"),
     (match t with | some (h, m, tz) => strftimeIMp h m tz | none => "N/A"))
  | _, _ => ("N/A", "N/A")

/-- Raw `{"Value": ...}` wrapper used for temperatures, wind speed and
precipitation amounts. -/
structure RawValueBox where
  value? : Option ℚ := none
deriving DecidableEq

/-- Raw `Temperature` object. -/
structure RawTemp where
  maximum? : Option RawValueBox := none
  minimum? : Option RawValueBox := none
deriving DecidableEq

/-- Raw `Wind.Direction` object. -/
structure RawWindDir where
  degrees? : Option Int := none
deriving DecidableEq

/-- Raw `Wind` object. -/
structure RawWind where
  speed? : Option RawValueBox := none
  direction? : Option RawWindDir := none
deriving DecidableEq

/-- Raw `Day` object. -/
structure RawDay where
  icon? : Option Int := none
  iconPhrase? : Option String := none
  wind? : Option RawWind := none
  rain? : Option RawValueBox := none
  snow? : Option RawValueBox := none
  ice? : Option RawValueBox := none
  precipProb? : Option Int := none
deriving DecidableEq

/-- Raw `Sun` object. -/
structure RawSun where
  rise? : Option String := none
  set? : Option String := none
deriving DecidableEq

/-- Raw entry of the `AirAndPollen` collection. -/
structure RawAP where
  name? : Option String := none
  value? : Option Int := none
  category? : Option String := none
deriving DecidableEq

/-- Raw element of the `DailyForecasts` array. -/
structure RawDaily where
  epochDate? : Option Int := none
  temperature? : Option RawTemp := none
  day? : Option RawDay := none
  sun? : Option RawSun := none
  airAndPollen? : Option (List RawAP) := none
deriving DecidableEq

/-- The normalized daily forecast record built by the source's parse loop. -/
structure DailyForecastRecord where
  weather_desc : String
  icon : Option Int
  high_temp : ℚ
  low_temp : ℚ
  wind_speed : ℚ
  wind_direction : String
  humidity : String
  dew_point : String
  precipitation : ℚ
  precip_chance : Int
  uv_index : String
  sunrise : String
  sunset : String
  date_obj : Option Int
  date_str : String
  day_name : String
deriving DecidableEq

/-- Embedding of one iteration of the parse loop of `get_accuweather_forecast`
(source lines 103-167), building one normalized record from one raw element.
Note `date_obj` uses Python truthiness of `epoch_date` (an epoch of `0` is
falsy and treated like an absent one). -/
def parseRecord (dd : RawDaily) : DailyForecastRecord :=
  let temp_data := dd.temperature?.getD {}
  let day_data := dd.day?.getD {}
  let wind_data := day_data.wind?.getD {}
  let wind_speed_data := wind_data.speed?.getD {}
  let wind_direction_data := wind_data.direction?.getD {}
  let sun_data := dd.sun?.getD {}
  let air_and_pollen := dd.airAndPollen?.getD []
  let uv_index_info := air_and_pollen.find? (fun item => item.name? == some "UVIndex")
  let uv_index :=
    match uv_index_info with
    | some i => pyStrOptInt i.value? ++ " (" ++ pyStrOptStr i.category? ++ ")"
    | none => "N/A"
  let precip_value := (day_data.rain?.getD {}).value?.getD 0 +
    (day_data.snow?.getD {}).value?.getD 0 + (day_data.ice?.getD {}).value?.getD 0
  let precip_prob := day_data.precipProb?.getD 0
  let wind_speed_ms :=
    match wind_speed_data.value? with
    | some kmh => round1 (kmh / 3.6)
    | none => 0
  let date_obj : Option Int :=
    match dd.epochDate? with
    | some e => if e ≠ 0 then some e else none
    | none => none
  let date_str := match date_obj with | some e => epochToDateStr e | none => "N/A"
  let day_name := match date_obj with | some e => weekdayName e | none => "N/A"
  let sun := formatSunTimes sun_data.rise? sun_data.set?
  { weather_desc := pyCapitalize (day_data.iconPhrase?.getD "N/A")
    icon := day_data.icon?
    high_temp := round1 ((temp_data.maximum?.getD {}).value?.getD 0)
    low_temp := round1 ((temp_data.minimum?.getD {}).value?.getD 0)
    wind_speed := wind_speed_ms
    wind_direction := get_wind_direction
      (match wind_direction_data.degrees? with
       | some d => WindInput.num d
       | none => WindInput.none)
    humidity := "N/A"
    dew_point := "N/A"
    precipitation := round1 precip_value
    precip_chance := precip_prob
    uv_index := uv_index
    sunrise := sun.1
    sunset := sun.2
    date_obj := date_obj
    date_str := date_str
    day_name := day_name }

/-- Sort key used by the source's `weekly_forecast.sort`: the record's
`date_obj`, with `None` replaced by `datetime.min.replace(tzinfo=utc)`
(epoch `-62135596800`), so undated records sort first. -/
def datetimeMinEpoch : Int := -62135596800

/-- Sort key of a record, as an epoch instant. -/
def sortKey (r : DailyForecastRecord) : Int :=
  match r.date_obj with
  | some e => e
  | none => datetimeMinEpoch

/-- Ordering by sort key, the comparison `list.sort` performs. -/
def recLe (a b : DailyForecastRecord) : Prop := sortKey a ≤ sortKey b

instance : DecidableRel recLe := fun a b => inferInstanceAs (Decidable (sortKey a ≤ sortKey b))

instance : IsTotal DailyForecastRecord recLe := ⟨fun a b => Int.le_total (sortKey a) (sortKey b)⟩

instance : IsTrans DailyForecastRecord recLe := ⟨fun _ _ _ h h' => le_trans h h'⟩

/-- The day counts the source accepts without coercion. -/
def supportedDays : List Int := [1, 5, 10, 15]

/-- Day count actually used: values outside `supportedDays` are coerced to 5
(source lines 80-82). -/
def effectiveDays (days : Int) : Int := if days ∈ supportedDays then days else 5

/-- Forecast endpoint URL (source line 84). -/
def forecastUrl (days : Int) (location_key : String) : String :=
  ACCUWEATHER_BASE_URL ++ "/forecasts/v1/daily/" ++ toString days ++ "day/" ++ location_key

/-- Parsed body of a forecast response. `dailyForecasts? = none` covers both a
falsy body and a body without the `"DailyForecasts"` key (source line 99). -/
structure RespData where
  dailyForecasts? : Option (List RawDaily) := none

/-- Outcome of an HTTP GET returning JSON: `fail` is a `RequestException`
(network failure, or 4xx/5xx raised by `raise_for_status`) or an unparsable
body, all of which the source catches and turns into `None`. -/
inductive ForecastHttp
  | fail
  | ok (data : RespData)

/-- Normalization pipeline applied to the raw array: parse each element, sort
ascending by date (stably), truncate to the requested day count. -/
def normalizeRecords (raws : List RawDaily) (d : Int) : List DailyForecastRecord :=
  (List.insertionSort recLe (raws.map parseRecord)).take d.toNat

/-- Result of `get_accuweather_forecast`: the URL requested, whether the
unsupported-day warning was logged, and the returned records (`none` models
the function returning `None`). -/
structure FetchResult where
  url : String
  warned : Bool
  records? : Option (List DailyForecastRecord)

/-- Embedding of `get_accuweather_forecast` (source lines 74-183). The
provider is an oracle keyed by the request URL. -/
def get_accuweather_forecast (provider : String → ForecastHttp) (location_key : String)
    (days : Int) : FetchResult :=
  let warned := decide (days ∉ supportedDays)
  let d := effectiveDays days
  let url := forecastUrl d location_key
  match provider url with
  | ForecastHttp.fail => ⟨url, warned, none⟩
  | ForecastHttp.ok data =>
    match data.dailyForecasts? with
    | none => ⟨url, warned, none⟩
    | some raws => ⟨url, warned, some (normalizeRecords raws d)⟩

/-- Parsed body of the geoposition response: either not a JSON object (or a
falsy one), or an object whose `"Key"` entry may be absent. -/
inductive LocJson
  | nonDict
  | obj (key? : Option String)
deriving DecidableEq

/-- A geoposition HTTP outcome: a network failure, or a status with a body
(`none` = body not parsable as JSON). -/
inductive LocHttp
  | netError
  | resp (status : Nat) (body : Option LocJson)
deriving DecidableEq

/-- Embedding of `get_accuweather_location_key` (source lines 42-71):
`raise_for_status` raises exactly on 4xx/5xx; then the body must be a truthy
dict containing `"Key"`, whose value is returned as-is. -/
def get_accuweather_location_key : LocHttp → Option String
  | LocHttp.netError => none
  | LocHttp.resp status body =>
    if 400 ≤ status ∧ status < 600 then none
    else
      match body with
      | none => none
      | some LocJson.nonDict => none
      | some (LocJson.obj key?) => key?

/-- Python truthiness of the optional location key (`if not location_key`). -/
def pyTruthyKey : Option String → Bool
  | none => false
  | some s => !(s == "")

/-- Image tag computed for a record's detail section (source lines 379-389),
kept structured; `renderImgTag` gives the exact string. -/
inductive ImgTag
  | img (cid desc : String)
  | unavailable
  | unavailableDesc (desc : String)
deriving DecidableEq

/-- String form of a detail-section image tag, verbatim from the source. -/
def renderImgTag : ImgTag → String
  | ImgTag.img cid desc =>
    "<img src=\"cid:" ++ cid ++ "\" alt=\"" ++ desc ++ "\" class=\"weather-icon\" title=\"" ++ desc ++ "\">"
  | ImgTag.unavailable => "(icon unavailable)"
  | ImgTag.unavailableDesc desc => "(" ++ desc ++ " - icon unavailable)"

/-- One building block of the generated HTML body, in document order. Each
constructor corresponds to one of the f-string templates the source
concatenates; the interpolated values are its arguments. -/
inductive HtmlPiece
  | header (actualDays : Nat) (city : String)
  | summaryImg (day_name cid desc : String)
  | summaryFallback (day_name desc : String)
  | endSummary
  | detail (r : DailyForecastRecord) (tag : ImgTag)
  | footer
deriving DecidableEq

/-- String form of a summary item with an embedded icon (source lines 348-353). -/
def renderSummaryImg (day_name cid desc : String) : String :=
  "<div class=\"summary-item\"><div class=\"summary-day\">" ++ day_name ++
    "</div><img src=\"cid:" ++ cid ++ "\" alt=\"" ++ desc ++
    "\" class=\"summary-icon-small\" title=\"" ++ desc ++ "\"></div>"

/-- String form of a summary item whose icon is unavailable (source lines
356-368): the weather description in parentheses as a textual fallback. -/
def renderSummaryFallback (day_name desc : String) : String :=
  "<div class=\"summary-item\"><div class=\"summary-day\">" ++ day_name ++
    "</div>(" ++ desc ++ ")</div>"

/-- Content identifiers the piece references via `cid:` links in its rendered
HTML (`renderSummaryImg`/`renderImgTag` templates). -/
def cidRefs : HtmlPiece → List String
  | HtmlPiece.summaryImg _ cid _ => [cid]
  | HtmlPiece.detail _ (ImgTag.img cid _) => [cid]
  | _ => []

/-- The content identifier the source builds for a record:
`f"summary_icon_{date_str}_{icon_code_str}"`. -/
def mkCid (date_str icon_code_str : String) : String :=
  "summary_icon_" ++ date_str ++ "_" ++ icon_code_str

/-- Content identifiers of an attachment list. -/
def imgCids (images : List (String × String)) : List String :=
  images.map (fun p => p.2)

/-- Content identifiers referenced by a list of HTML pieces. -/
def refCids (pieces : List HtmlPiece) : List String := pieces.flatMap cidRefs

/-- State threaded through the summary loop (source lines 316-368):
`cache` is `fetched_icons` (a mapping from zero-padded code to bytes, or
`none` for a remembered failure), `images` is `email_images`,
`pieces` the HTML built so far, and `fetches` the log of icon HTTP GETs. -/
structure RenderSt where
  cache : List (String × Option String)
  images : List (String × String)
  pieces : List HtmlPiece
  fetches : List String

/-- Cache/attachment update for one record with a truthy icon code (source
lines 330-345): fetch on a cache miss (appending the attachment
unconditionally on success), otherwise reuse the cached bytes, appending the
attachment only for truthy bytes and a fresh content identifier. The icon
fetch oracle returns `none` for a `RequestException` and `some bytes` for a
2xx response (possibly with an empty body). -/
def updateFor (ifetch : String → Option String) (st : RenderSt) (cs cid : String) : RenderSt :=
  match st.cache.lookup cs with
  | none =>
    match ifetch cs with
    | some b =>
      { st with cache := (cs, some b) :: st.cache,
                images := st.images ++ [(b, cid)],
                fetches := st.fetches ++ [cs] }
    | none =>
      { st with cache := (cs, none) :: st.cache,
                fetches := st.fetches ++ [cs] }
  | some cached =>
    match cached with
    | some b =>
      if b ≠ "" ∧ cid ∉ imgCids st.images then
        { st with images := st.images ++ [(b, cid)] }
      else st
    | none => st

/-- Summary-strip entry for one record with a truthy icon code (source lines
347-361): an inline image when the cached bytes are truthy, else the textual
fallback. -/
def summaryPiece (cache : List (String × Option String)) (cs day_name cid desc : String) :
    HtmlPiece :=
  match cache.lookup cs with
  | some (some b) =>
    if b ≠ "" then HtmlPiece.summaryImg day_name cid desc
    else HtmlPiece.summaryFallback day_name desc
  | _ => HtmlPiece.summaryFallback day_name desc

/-- Embedding of one iteration of the summary loop (source lines 318-368).
Note Python truthiness: an icon code of `0` counts as absent. -/
def summaryStep (ifetch : String → Option String) (st : RenderSt)
    (r : DailyForecastRecord) : RenderSt :=
  match r.icon with
  | some c =>
    if c ≠ 0 then
      let cs := zfill2 (toString c)
      let cid := mkCid r.date_str cs
      let st1 := updateFor ifetch st cs cid
      { st1 with pieces := st1.pieces ++ [summaryPiece st1.cache cs r.day_name cid r.weather_desc] }
    else { st with pieces := st.pieces ++ [HtmlPiece.summaryFallback r.day_name r.weather_desc] }
  | none => { st with pieces := st.pieces ++ [HtmlPiece.summaryFallback r.day_name r.weather_desc] }

/-- Embedding of the detail-section image tag computation (source lines
375-389), reading the cache filled by the summary loop without mutating it. -/
def detailTag (cache : List (String × Option String)) (r : DailyForecastRecord) : ImgTag :=
  match r.icon with
  | some c =>
    if c ≠ 0 then
      match cache.lookup (zfill2 (toString c)) with
      | some (some b) =>
        if b ≠ "" then ImgTag.img (mkCid r.date_str (zfill2 (toString c))) r.weather_desc
        else ImgTag.unavailableDesc r.weather_desc
      | _ => ImgTag.unavailableDesc r.weather_desc
    else ImgTag.unavailable
  | none => ImgTag.unavailable

/-- Output of rendering: the HTML body (as pieces), the inline image
attachment list, and the log of icon HTTP GETs issued. -/
structure RenderOut where
  pieces : List HtmlPiece
  images : List (String × String)
  fetches : List String

/-- Embedding of the report construction inside `WeatherAlert` (source lines
293-410): the summary loop followed by the detail loop over the same
records, against the cache state the summary loop produced. -/
def renderForecast (ifetch : String → Option String) (records : List DailyForecastRecord)
    (city : String) : RenderOut :=
  let s := records.foldl (summaryStep ifetch) ⟨[], [], [], []⟩
  let details := records.map (fun r => HtmlPiece.detail r (detailTag s.cache r))
  ⟨[HtmlPiece.header records.length city] ++ s.pieces ++ [HtmlPiece.endSummary] ++
    details ++ [HtmlPiece.footer], s.images, s.fetches⟩

/-- Configuration read from the environment (source lines 244-251). The
numeric-parse validation of latitude/longitude is performed by the caller
per spec section 6; coordinates here are the already-validated strings. -/
structure Config where
  accuweather_api_key : String
  gmail_user : String
  gmail_password : String
  to_email : String
  lat : String
  lon : String
  city : String
  forecast_days : Int
deriving DecidableEq

/-- Python truthiness check of the required environment variables (source
lines 254-265). -/
def configMissing (cfg : Config) : Bool :=
  cfg.accuweather_api_key == "" || cfg.gmail_user == "" || cfg.gmail_password == "" ||
    cfg.to_email == "" || cfg.lat == "" || cfg.lon == ""

/-- The composed email: subject, HTML body pieces and inline images. -/
structure EmailMsg where
  subject : String
  pieces : List HtmlPiece
  images : List (String × String)

/-- Email subject line (source line 290). -/
def subjectFor (actualDays : Nat) (city : String) : String :=
  "🌦️ " ++ toString actualDays ++ "-Day AccuWeather Forecast for " ++ city

/-- Observable effects of one `WeatherAlert` run: the resolver result, the
forecast request URL if one was issued, the normalized records if the fetch
succeeded, the icon GETs issued, and the email handed to the transport. -/
structure RunEffects where
  configOk : Bool
  locationKey? : Option String
  forecastUrl? : Option String
  records? : Option (List DailyForecastRecord)
  iconFetches : List String
  email? : Option EmailMsg

/-- Embedding of the timer entry point `WeatherAlert` (source lines 233-424):
validate configuration, resolve the location key, fetch the forecast, and on
a truthy record list render the report and send the email. -/
def WeatherAlert (cfg : Config) (locResp : LocHttp) (provider : String → ForecastHttp)
    (ifetch : String → Option String) : RunEffects :=
  if configMissing cfg then ⟨false, none, none, none, [], none⟩
  else if ¬(1 ≤ cfg.forecast_days ∧ cfg.forecast_days ≤ 15) then ⟨false, none, none, none, [], none⟩
  else
    let location_key := get_accuweather_location_key locResp
    if pyTruthyKey location_key = false then ⟨true, location_key, none, none, [], none⟩
    else
      let fr := get_accuweather_forecast provider (location_key.getD "") cfg.forecast_days
      match fr.records? with
      | some (r :: rs) =>
        let out := renderForecast ifetch (r :: rs) cfg.city
        ⟨true, location_key, some fr.url, fr.records?, out.fetches,
          some ⟨subjectFor (r :: rs).length cfg.city, out.pieces, out.images⟩⟩
      | _ => ⟨true, location_key, some fr.url, fr.records?, [], none⟩

theorem lookup_cons_self (cache : List (String × Option String)) (cs : String)
    (v : Option String) : ((cs, v) :: cache).lookup cs = some v := by
  simp [List.lookup]

theorem lookup_cons_ne (cache : List (String × Option String)) (cs cs' : String)
    (v : Option String) (h : cs' ≠ cs) : ((cs, v) :: cache).lookup cs' = cache.lookup cs' := by
  have hb : (cs' == cs) = false := beq_eq_false_iff_ne.mpr h
  simp [List.lookup, hb]

/-- Two content identifiers built by `mkCid` agree only on equal components,
as long as the code strings have equal length (they are two characters for
the provider's icon codes). -/
theorem mkCid_inj (ds1 cs1 ds2 cs2 : String) (hlen : cs1.length = cs2.length)
    (h : mkCid ds1 cs1 = mkCid ds2 cs2) : ds1 = ds2 ∧ cs1 = cs2 := by
  have hd := congrArg String.data h
  simp only [mkCid, String.data_append] at hd
  have hd' : ("summary_icon_".data ++ ds1.data ++ "_".data) ++ cs1.data =
      ("summary_icon_".data ++ ds2.data ++ "_".data) ++ cs2.data := by
    simpa [List.append_assoc] using hd
  have hcs : cs1.data.length = cs2.data.length := hlen
  obtain ⟨h1, h2⟩ := List.append_inj' hd' hcs
  have h1' : ("summary_icon_".data ++ ds1.data) ++ "_".data =
      ("summary_icon_".data ++ ds2.data) ++ "_".data := by
    simpa [List.append_assoc] using h1
  obtain ⟨h3, _⟩ := List.append_inj' h1' rfl
  have h4 := List.append_cancel_left h3
  exact ⟨String.ext h4, String.ext h2⟩

theorem mkCid_ne_of_ne (ds1 ds2 cs : String) (h : ds1 ≠ ds2) :
    mkCid ds1 cs ≠ mkCid ds2 cs := fun hc => h (mkCid_inj ds1 cs ds2 cs rfl hc).1

/-- The cache only ever holds the oracle's answer for each code: a cached
`some bytes` was a successful fetch of exactly those bytes, a cached `none`
a remembered failure. -/
def CacheOk (ifetch : String → Option String) (cache : List (String × Option String)) : Prop :=
  ∀ cs v, cache.lookup cs = some v → ifetch cs = v

/-- Every attachment comes from some record with a truthy icon whose code's
fetch succeeded and returned the attached bytes, under that record's content
identifier. -/
def ImagesProv (ifetch : String → Option String) (records : List DailyForecastRecord)
    (images : List (String × String)) : Prop :=
  ∀ p ∈ images, ∃ r ∈ records, ∃ c, r.icon = some c ∧ c ≠ 0 ∧
    p.2 = mkCid r.date_str (zfill2 (toString c)) ∧ ifetch (zfill2 (toString c)) = some p.1

/-- Every `cid:` reference in the pieces comes from some record with a truthy
icon whose code's fetch succeeded with truthy bytes. -/
def PieceProv (ifetch : String → Option String) (records : List DailyForecastRecord)
    (pieces : List HtmlPiece) : Prop :=
  ∀ piece ∈ pieces, ∀ cid ∈ cidRefs piece, ∃ r ∈ records, ∃ c,
    r.icon = some c ∧ c ≠ 0 ∧ cid = mkCid r.date_str (zfill2 (toString c)) ∧
    ∃ b, ifetch (zfill2 (toString c)) = some b ∧ b ≠ ""

/-- Invariant of the summary loop state, relative to the full record list:
cache entries mirror the fetch oracle, attachments and references have
record provenance, no code was fetched twice, and every fetched code is
cached. -/
structure SummaryInv (ifetch : String → Option String) (records : List DailyForecastRecord)
    (st : RenderSt) : Prop where
  cacheOk : CacheOk ifetch st.cache
  prov : ImagesProv ifetch records st.images
  pieceProv : PieceProv ifetch records st.pieces
  nodupFetches : st.fetches.Nodup
  fetchesCached : ∀ cs ∈ st.fetches, st.cache.lookup cs ≠ none

theorem updateFor_cacheOk (ifetch : String → Option String) (st : RenderSt) (cs cid : String)
    (hC : CacheOk ifetch st.cache) : CacheOk ifetch (updateFor ifetch st cs cid).cache := by
  cases hl : st.cache.lookup cs with
  | none =>
    cases hf : ifetch cs with
    | some b =>
      simp only [updateFor, hl, hf]
      intro cs' v hv
      by_cases hcs : cs' = cs
      · subst hcs
        rw [lookup_cons_self] at hv
        injection hv with hv'
        exact hv' ▸ hf
      · rw [lookup_cons_ne _ _ _ _ hcs] at hv
        exact hC _ _ hv
    | none =>
      simp only [updateFor, hl, hf]
      intro cs' v hv
      by_cases hcs : cs' = cs
      · subst hcs
        rw [lookup_cons_self] at hv
        injection hv with hv'
        exact hv' ▸ hf
      · rw [lookup_cons_ne _ _ _ _ hcs] at hv
        exact hC _ _ hv
  | some cached =>
    cases cached with
    | some b =>
      by_cases hcond : b ≠ "" ∧ cid ∉ imgCids st.images
      · simpa only [updateFor, hl, if_pos hcond] using hC
      · simpa only [updateFor, hl, if_neg hcond] using hC
    | none => simpa only [updateFor, hl] using hC

theorem updateFor_pieces (ifetch : String → Option String) (st : RenderSt) (cs cid : String) :
    (updateFor ifetch st cs cid).pieces = st.pieces := by
  cases hl : st.cache.lookup cs with
  | none =>
    cases hf : ifetch cs with
    | some b => simp only [updateFor, hl, hf]
    | none => simp only [updateFor, hl, hf]
  | some cached =>
    cases cached with
    | some b =>
      by_cases hcond : b ≠ "" ∧ cid ∉ imgCids st.images
      · simp only [updateFor, hl, if_pos hcond]
      · simp only [updateFor, hl, if_neg hcond]
    | none => simp only [updateFor, hl]

theorem updateFor_images_sub (ifetch : String → Option String) (st : RenderSt) (cs cid : String)
    (hC : CacheOk ifetch st.cache) :
    ∀ p ∈ (updateFor ifetch st cs cid).images,
      p ∈ st.images ∨ ∃ b, ifetch cs = some b ∧ p = (b, cid) := by
  intro p hp
  cases hl : st.cache.lookup cs with
  | none =>
    cases hf : ifetch cs with
    | some b =>
      simp only [updateFor, hl, hf, List.mem_append, List.mem_singleton] at hp
      rcases hp with h | h
      · exact Or.inl h
      · exact Or.inr ⟨b, rfl, h⟩
    | none =>
      simp only [updateFor, hl, hf] at hp
      exact Or.inl hp
  | some cached =>
    cases cached with
    | some b =>
      by_cases hcond : b ≠ "" ∧ cid ∉ imgCids st.images
      · simp only [updateFor, hl, if_pos hcond, List.mem_append, List.mem_singleton] at hp
        rcases hp with h | h
        · exact Or.inl h
        · exact Or.inr ⟨b, hC cs (some b) hl, h⟩
      · simp only [updateFor, hl, if_neg hcond] at hp
        exact Or.inl hp
    | none =>
      simp only [updateFor, hl] at hp
      exact Or.inl hp

theorem updateFor_fetches_ok (ifetch : String → Option String) (st : RenderSt) (cs cid : String)
    (hN : st.fetches.Nodup) (hFC : ∀ x ∈ st.fetches, st.cache.lookup x ≠ none) :
    (updateFor ifetch st cs cid).fetches.Nodup ∧
      (∀ x ∈ (updateFor ifetch st cs cid).fetches,
        (updateFor ifetch st cs cid).cache.lookup x ≠ none) := by
  cases hl : st.cache.lookup cs with
  | none =>
    have hnotin : cs ∉ st.fetches := fun hin => (hFC cs hin) hl
    cases hf : ifetch cs with
    | some b =>
      simp only [updateFor, hl, hf]
      constructor
      · simp [List.nodup_append, hN, hnotin]
      · intro x hx
        rcases List.mem_append.mp hx with h | h
        · by_cases hxcs : x = cs
          · subst hxcs
            rw [lookup_cons_self]
            exact fun hfalse => Option.noConfusion hfalse
          · rw [lookup_cons_ne _ _ _ _ hxcs]
            exact hFC x h
        · have hx' : x = cs := List.mem_singleton.mp h
          subst hx'
          rw [lookup_cons_self]
          exact fun hfalse => Option.noConfusion hfalse
    | none =>
      simp only [updateFor, hl, hf]
      constructor
      · simp [List.nodup_append, hN, hnotin]
      · intro x hx
        rcases List.mem_append.mp hx with h | h
        · by_cases hxcs : x = cs
          · subst hxcs
            rw [lookup_cons_self]
            exact fun hfalse => Option.noConfusion hfalse
          · rw [lookup_cons_ne _ _ _ _ hxcs]
            exact hFC x h
        · have hx' : x = cs := List.mem_singleton.mp h
          subst hx'
          rw [lookup_cons_self]
          exact fun hfalse => Option.noConfusion hfalse
  | some cached =>
    cases cached with
    | some b =>
      by_cases hcond : b ≠ "" ∧ cid ∉ imgCids st.images
      · simp only [updateFor, hl, if_pos hcond]
        exact ⟨hN, hFC⟩
      · simp only [updateFor, hl, if_neg hcond]
        exact ⟨hN, hFC⟩
    | none =>
      simp only [updateFor, hl]
      exact ⟨hN, hFC⟩

theorem updateFor_cache_stable (ifetch : String → Option String) (st : RenderSt) (cs cid x : String)
    (v : Option String) (hx : st.cache.lookup x = some v) :
    (updateFor ifetch st cs cid).cache.lookup x = some v := by
  cases hl : st.cache.lookup cs with
  | none =>
    have hxcs : x ≠ cs := fun h => by rw [h, hl] at hx; exact Option.noConfusion hx
    cases hf : ifetch cs with
    | some b =>
      simp only [updateFor, hl, hf]
      rw [lookup_cons_ne _ _ _ _ hxcs]
      exact hx
    | none =>
      simp only [updateFor, hl, hf]
      rw [lookup_cons_ne _ _ _ _ hxcs]
      exact hx
  | some cached =>
    cases cached with
    | some b =>
      by_cases hcond : b ≠ "" ∧ cid ∉ imgCids st.images
      · simpa only [updateFor, hl, if_pos hcond] using hx
      · simpa only [updateFor, hl, if_neg hcond] using hx
    | none => simpa only [updateFor, hl] using hx

theorem pieceProv_append_fallback (ifetch : String → Option String)
    (records : List DailyForecastRecord) (pieces : List HtmlPiece)
    (hPP : PieceProv ifetch records pieces) (dn d : String) :
    PieceProv ifetch records (pieces ++ [HtmlPiece.summaryFallback dn d]) := by
  intro piece hp cid hcid
  rcases List.mem_append.mp hp with h | h
  · exact hPP piece h cid hcid
  · rw [List.mem_singleton.mp h] at hcid
    simp [cidRefs] at hcid

theorem summaryStep_inv (ifetch : String → Option String) (records : List DailyForecastRecord)
    (st : RenderSt) (r : DailyForecastRecord) (hr : r ∈ records)
    (hinv : SummaryInv ifetch records st) :
    SummaryInv ifetch records (summaryStep ifetch st r) := by
  obtain ⟨hC, hP, hPP, hN, hFC⟩ := hinv
  cases hic : r.icon with
  | none =>
    simp only [summaryStep, hic]
    exact ⟨hC, hP, pieceProv_append_fallback ifetch records st.pieces hPP _ _, hN, hFC⟩
  | some c =>
    by_cases hc0 : c = 0
    · subst hc0
      simp only [summaryStep, hic, if_neg (fun h : (0 : Int) ≠ 0 => h rfl)]
      exact ⟨hC, hP, pieceProv_append_fallback ifetch records st.pieces hPP _ _, hN, hFC⟩
    · simp only [summaryStep, hic, if_pos hc0]
      have hC1 : CacheOk ifetch
          (updateFor ifetch st (zfill2 (toString c)) (mkCid r.date_str (zfill2 (toString c)))).cache :=
        updateFor_cacheOk ifetch st _ _ hC
      refine ⟨hC1, ?_, ?_, (updateFor_fetches_ok ifetch st _ _ hN hFC).1,
        (updateFor_fetches_ok ifetch st _ _ hN hFC).2⟩
      · intro p hp
        rcases updateFor_images_sub ifetch st _ _ hC p hp with h | ⟨b, hfb, rfl⟩
        · exact hP p h
        · exact ⟨r, hr, c, hic, hc0, rfl, hfb⟩
      · have hPP1 : PieceProv ifetch records
            (updateFor ifetch st (zfill2 (toString c)) (mkCid r.date_str (zfill2 (toString c)))).pieces := by
          rw [updateFor_pieces]
          exact hPP
        intro piece hp cid' hcid'
        rcases List.mem_append.mp hp with h | h
        · exact hPP1 piece h cid' hcid'
        · rw [List.mem_singleton.mp h] at hcid'
          cases hl1 : (updateFor ifetch st (zfill2 (toString c))
              (mkCid r.date_str (zfill2 (toString c)))).cache.lookup (zfill2 (toString c)) with
          | some cached =>
            cases cached with
            | some b =>
              by_cases hb : b ≠ ""
              · simp only [summaryPiece, hl1, if_pos hb, cidRefs, List.mem_singleton] at hcid'
                subst hcid'
                exact ⟨r, hr, c, hic, hc0, rfl, b, hC1 _ (some b) hl1, hb⟩
              · simp only [summaryPiece, hl1, if_neg hb, cidRefs] at hcid'
                exact absurd hcid' (List.not_mem_nil _)
            | none =>
              simp only [summaryPiece, hl1, cidRefs] at hcid'
              exact absurd hcid' (List.not_mem_nil _)
          | none =>
            simp only [summaryPiece, hl1, cidRefs] at hcid'
            exact absurd hcid' (List.not_mem_nil _)

theorem updateFor_images_mono (ifetch : String → Option String) (st : RenderSt) (cs cid : String)
    (p : String × String) (hp : p ∈ st.images) : p ∈ (updateFor ifetch st cs cid).images := by
  cases hl : st.cache.lookup cs with
  | none =>
    cases hf : ifetch cs with
    | some b =>
      simp only [updateFor, hl, hf]
      exact List.mem_append_left _ hp
    | none => simpa only [updateFor, hl, hf] using hp
  | some cached =>
    cases cached with
    | some b =>
      by_cases hcond : b ≠ "" ∧ cid ∉ imgCids st.images
      · simp only [updateFor, hl, if_pos hcond]
        exact List.mem_append_left _ hp
      · simpa only [updateFor, hl, if_neg hcond] using hp
    | none => simpa only [updateFor, hl] using hp

theorem summaryStep_images_mono (ifetch : String → Option String) (st : RenderSt)
    (r : DailyForecastRecord) (p : String × String) (hp : p ∈ st.images) :
    p ∈ (summaryStep ifetch st r).images := by
  cases hic : r.icon with
  | none => simpa only [summaryStep, hic] using hp
  | some c =>
    by_cases hc0 : c = 0
    · subst hc0
      simpa only [summaryStep, hic, if_neg (fun h : (0 : Int) ≠ 0 => h rfl)] using hp
    · simp only [summaryStep, hic, if_pos hc0]
      exact updateFor_images_mono ifetch st _ _ p hp

theorem summaryStep_pieces_mono (ifetch : String → Option String) (st : RenderSt)
    (r : DailyForecastRecord) (piece : HtmlPiece) (hp : piece ∈ st.pieces) :
    piece ∈ (summaryStep ifetch st r).pieces := by
  cases hic : r.icon with
  | none =>
    simp only [summaryStep, hic]
    exact List.mem_append_left _ hp
  | some c =>
    by_cases hc0 : c = 0
    · subst hc0
      simp only [summaryStep, hic, if_neg (fun h : (0 : Int) ≠ 0 => h rfl)]
      exact List.mem_append_left _ hp
    · simp only [summaryStep, hic, if_pos hc0]
      refine List.mem_append_left _ ?_
      rw [updateFor_pieces]
      exact hp

theorem summaryStep_cacheOk (ifetch : String → Option String) (st : RenderSt)
    (r : DailyForecastRecord) (hC : CacheOk ifetch st.cache) :
    CacheOk ifetch (summaryStep ifetch st r).cache := by
  cases hic : r.icon with
  | none => simpa only [summaryStep, hic] using hC
  | some c =>
    by_cases hc0 : c = 0
    · subst hc0
      simpa only [summaryStep, hic, if_neg (fun h : (0 : Int) ≠ 0 => h rfl)] using hC
    · simp only [summaryStep, hic, if_pos hc0]
      exact updateFor_cacheOk ifetch st _ _ hC

theorem summaryStep_cache_stable (ifetch : String → Option String) (st : RenderSt)
    (r : DailyForecastRecord) (x : String) (v : Option String)
    (hx : st.cache.lookup x = some v) :
    (summaryStep ifetch st r).cache.lookup x = some v := by
  cases hic : r.icon with
  | none => simpa only [summaryStep, hic] using hx
  | some c =>
    by_cases hc0 : c = 0
    · subst hc0
      simpa only [summaryStep, hic, if_neg (fun h : (0 : Int) ≠ 0 => h rfl)] using hx
    · simp only [summaryStep, hic, if_pos hc0]
      exact updateFor_cache_stable ifetch st _ _ x v hx

theorem summaryFold_inv (ifetch : String → Option String) (records : List DailyForecastRecord) :
    ∀ (l : List DailyForecastRecord) (st : RenderSt), (∀ x ∈ l, x ∈ records) →
      SummaryInv ifetch records st →
      SummaryInv ifetch records (l.foldl (summaryStep ifetch) st) := by
  intro l
  induction l with
  | nil => exact fun st _ hinv => hinv
  | cons r t ih =>
    intro st hsub hinv
    rw [List.foldl_cons]
    exact ih (summaryStep ifetch st r) (fun x hx => hsub x (List.mem_cons_of_mem _ hx))
      (summaryStep_inv ifetch records st r (hsub r (List.mem_cons_self _ _)) hinv)

theorem summaryFold_images_mono (ifetch : String → Option String) :
    ∀ (l : List DailyForecastRecord) (st : RenderSt) (p : String × String), p ∈ st.images →
      p ∈ (l.foldl (summaryStep ifetch) st).images := by
  intro l
  induction l with
  | nil => exact fun st p hp => hp
  | cons r t ih =>
    intro st p hp
    rw [List.foldl_cons]
    exact ih (summaryStep ifetch st r) p (summaryStep_images_mono ifetch st r p hp)

theorem summaryFold_pieces_mono (ifetch : String → Option String) :
    ∀ (l : List DailyForecastRecord) (st : RenderSt) (piece : HtmlPiece), piece ∈ st.pieces →
      piece ∈ (l.foldl (summaryStep ifetch) st).pieces := by
  intro l
  induction l with
  | nil => exact fun st p hp => hp
  | cons r t ih =>
    intro st p hp
    rw [List.foldl_cons]
    exact ih (summaryStep ifetch st r) p (summaryStep_pieces_mono ifetch st r p hp)

theorem summaryFold_cacheOk (ifetch : String → Option String) :
    ∀ (l : List DailyForecastRecord) (st : RenderSt), CacheOk ifetch st.cache →
      CacheOk ifetch (l.foldl (summaryStep ifetch) st).cache := by
  intro l
  induction l with
  | nil => exact fun st h => h
  | cons r t ih =>
    intro st h
    rw [List.foldl_cons]
    exact ih (summaryStep ifetch st r) (summaryStep_cacheOk ifetch st r h)

theorem summaryInv_init (ifetch : String → Option String) (records : List DailyForecastRecord) :
    SummaryInv ifetch records ⟨[], [], [], []⟩ := by
  refine ⟨?_, ?_, ?_, List.nodup_nil, ?_⟩
  · intro cs v hv
    simp [List.lookup] at hv
  · intro p hp
    exact absurd hp (List.not_mem_nil _)
  · intro piece hp
    exact absurd hp (List.not_mem_nil _)
  · intro cs h
    exact absurd h (List.not_mem_nil _)

theorem imgCids_append (a b : List (String × String)) :
    imgCids (a ++ b) = imgCids a ++ imgCids b := by
  simp [imgCids]

theorem refCids_append (a b : List HtmlPiece) :
    refCids (a ++ b) = refCids a ++ refCids b := by
  simp [refCids]

theorem summaryFold_imgCids_mono (ifetch : String → Option String)
    (l : List DailyForecastRecord) (st : RenderSt) (cid : String)
    (h : cid ∈ imgCids st.images) :
    cid ∈ imgCids (l.foldl (summaryStep ifetch) st).images := by
  rcases List.mem_map.mp h with ⟨p, hp, rfl⟩
  exact List.mem_map_of_mem _ (summaryFold_images_mono ifetch l st p hp)

theorem summaryStep_cid_mem (ifetch : String → Option String) (st : RenderSt)
    (r : DailyForecastRecord) (c : Int) (b : String) (hC : CacheOk ifetch st.cache)
    (hic : r.icon = some c) (hc0 : c ≠ 0)
    (hf : ifetch (zfill2 (toString c)) = some b) (hb : b ≠ "") :
    mkCid r.date_str (zfill2 (toString c)) ∈ imgCids (summaryStep ifetch st r).images := by
  simp only [summaryStep, hic, if_pos hc0]
  cases hl : st.cache.lookup (zfill2 (toString c)) with
  | none =>
    simp only [updateFor, hl, hf, imgCids_append]
    refine List.mem_append_right _ ?_
    simp [imgCids]
  | some cached =>
    cases cached with
    | some b' =>
      have hb' : b' = b := by
        have := hC _ _ hl
        rw [hf] at this
        exact (Option.some.inj this).symm
      rw [hb'] at hl
      by_cases hmem : mkCid r.date_str (zfill2 (toString c)) ∈ imgCids st.images
      · by_cases hcond : b ≠ "" ∧ mkCid r.date_str (zfill2 (toString c)) ∉ imgCids st.images
        · exact absurd hmem hcond.2
        · simpa only [updateFor, hl, if_neg hcond] using hmem
      · have hcond : b ≠ "" ∧ mkCid r.date_str (zfill2 (toString c)) ∉ imgCids st.images :=
          ⟨hb, hmem⟩
        simp only [updateFor, hl, if_pos hcond, imgCids_append]
        refine List.mem_append_right _ ?_
        simp [imgCids]
    | none =>
      have := hC _ _ hl
      rw [hf] at this
      exact absurd this (fun h => Option.noConfusion h)

theorem summaryFold_cid_mem (ifetch : String → Option String) :
    ∀ (l : List DailyForecastRecord) (st : RenderSt), CacheOk ifetch st.cache →
      ∀ r ∈ l, ∀ c b, r.icon = some c → c ≠ 0 →
        ifetch (zfill2 (toString c)) = some b → b ≠ "" →
        mkCid r.date_str (zfill2 (toString c)) ∈
          imgCids (l.foldl (summaryStep ifetch) st).images := by
  intro l
  induction l with
  | nil => exact fun st _ r hr => absurd hr (List.not_mem_nil _)
  | cons r0 t ih =>
    intro st hC r hr c b hic hc0 hf hb
    rw [List.foldl_cons]
    rcases List.mem_cons.mp hr with rfl | hrt
    · exact summaryFold_imgCids_mono ifetch t _ _
        (summaryStep_cid_mem ifetch st r c b hC hic hc0 hf hb)
    · exact ih (summaryStep ifetch st r0) (summaryStep_cacheOk ifetch st r0 hC) r hrt c b
        hic hc0 hf hb

theorem summaryStep_cidIff (ifetch : String → Option String) (st : RenderSt)
    (r : DailyForecastRecord) (nef : ∀ cs b, ifetch cs = some b → b ≠ "")
    (hC : CacheOk ifetch st.cache)
    (hiff : ∀ x, x ∈ imgCids st.images ↔ x ∈ refCids st.pieces) :
    ∀ x, x ∈ imgCids (summaryStep ifetch st r).images ↔
      x ∈ refCids (summaryStep ifetch st r).pieces := by
  cases hic : r.icon with
  | none =>
    intro x
    simp only [summaryStep, hic, refCids_append]
    have : refCids [HtmlPiece.summaryFallback r.day_name r.weather_desc] = [] := rfl
    rw [this, List.append_nil]
    exact hiff x
  | some c =>
    by_cases hc0 : c = 0
    · subst hc0
      intro x
      simp only [summaryStep, hic, if_neg (fun h : (0 : Int) ≠ 0 => h rfl), refCids_append]
      have : refCids [HtmlPiece.summaryFallback r.day_name r.weather_desc] = [] := rfl
      rw [this, List.append_nil]
      exact hiff x
    · cases hl : st.cache.lookup (zfill2 (toString c)) with
      | none =>
        cases hf : ifetch (zfill2 (toString c)) with
        | some b =>
          have hb : b ≠ "" := nef _ _ hf
          have hpiece : summaryPiece ((zfill2 (toString c), some b) :: st.cache)
              (zfill2 (toString c)) r.day_name (mkCid r.date_str (zfill2 (toString c)))
              r.weather_desc =
              HtmlPiece.summaryImg r.day_name (mkCid r.date_str (zfill2 (toString c)))
                r.weather_desc := by
            simp only [summaryPiece, lookup_cons_self, if_pos hb]
          intro x
          simp only [summaryStep, hic, if_pos hc0, updateFor, hl, hf, hpiece,
            imgCids_append, refCids_append, List.mem_append]
          have h1 : imgCids [(b, mkCid r.date_str (zfill2 (toString c)))] =
              [mkCid r.date_str (zfill2 (toString c))] := rfl
          have h2 : refCids [HtmlPiece.summaryImg r.day_name
              (mkCid r.date_str (zfill2 (toString c))) r.weather_desc] =
              [mkCid r.date_str (zfill2 (toString c))] := rfl
          rw [h1, h2]
          exact or_congr (hiff x) Iff.rfl
        | none =>
          have hpiece : summaryPiece ((zfill2 (toString c), (none : Option String)) :: st.cache)
              (zfill2 (toString c)) r.day_name (mkCid r.date_str (zfill2 (toString c)))
              r.weather_desc =
              HtmlPiece.summaryFallback r.day_name r.weather_desc := by
            simp only [summaryPiece, lookup_cons_self]
          intro x
          simp only [summaryStep, hic, if_pos hc0, updateFor, hl, hf, hpiece, refCids_append]
          have h2 : refCids [HtmlPiece.summaryFallback r.day_name r.weather_desc] = [] := rfl
          rw [h2, List.append_nil]
          exact hiff x
      | some cached =>
        cases cached with
        | some b =>
          have hfb : ifetch (zfill2 (toString c)) = some b := hC _ _ hl
          have hb : b ≠ "" := nef _ _ hfb
          have hpiece : summaryPiece st.cache (zfill2 (toString c)) r.day_name
              (mkCid r.date_str (zfill2 (toString c))) r.weather_desc =
              HtmlPiece.summaryImg r.day_name (mkCid r.date_str (zfill2 (toString c)))
                r.weather_desc := by
            simp only [summaryPiece, hl, if_pos hb]
          by_cases hmem : mkCid r.date_str (zfill2 (toString c)) ∈ imgCids st.images
          · have hcond : ¬(b ≠ "" ∧ mkCid r.date_str (zfill2 (toString c)) ∉ imgCids st.images) :=
              fun h => h.2 hmem
            intro x
            simp only [summaryStep, hic, if_pos hc0, updateFor, hl, if_neg hcond, hpiece,
              refCids_append, List.mem_append]
            have h2 : refCids [HtmlPiece.summaryImg r.day_name
                (mkCid r.date_str (zfill2 (toString c))) r.weather_desc] =
                [mkCid r.date_str (zfill2 (toString c))] := rfl
            rw [h2]
            constructor
            · intro hx
              exact Or.inl ((hiff x).mp hx)
            · intro hx
              rcases hx with hx | hx
              · exact (hiff x).mpr hx
              · rw [List.mem_singleton.mp hx]
                exact hmem
          · have hcond : b ≠ "" ∧ mkCid r.date_str (zfill2 (toString c)) ∉ imgCids st.images :=
              ⟨hb, hmem⟩
            intro x
            simp only [summaryStep, hic, if_pos hc0, updateFor, hl, if_pos hcond, hpiece,
              imgCids_append, refCids_append, List.mem_append]
            have h1 : imgCids [(b, mkCid r.date_str (zfill2 (toString c)))] =
                [mkCid r.date_str (zfill2 (toString c))] := rfl
            have h2 : refCids [HtmlPiece.summaryImg r.day_name
                (mkCid r.date_str (zfill2 (toString c))) r.weather_desc] =
                [mkCid r.date_str (zfill2 (toString c))] := rfl
            rw [h1, h2]
            exact or_congr (hiff x) Iff.rfl
        | none =>
          have hpiece : summaryPiece st.cache (zfill2 (toString c)) r.day_name
              (mkCid r.date_str (zfill2 (toString c))) r.weather_desc =
              HtmlPiece.summaryFallback r.day_name r.weather_desc := by
            simp only [summaryPiece, hl]
          intro x
          simp only [summaryStep, hic, if_pos hc0, updateFor, hl, hpiece, refCids_append]
          have h2 : refCids [HtmlPiece.summaryFallback r.day_name r.weather_desc] = [] := rfl
          rw [h2, List.append_nil]
          exact hiff x

theorem summaryFold_cidIff (ifetch : String → Option String)
    (nef : ∀ cs b, ifetch cs = some b → b ≠ "") :
    ∀ (l : List DailyForecastRecord) (st : RenderSt), CacheOk ifetch st.cache →
      (∀ x, x ∈ imgCids st.images ↔ x ∈ refCids st.pieces) →
      ∀ x, x ∈ imgCids (l.foldl (summaryStep ifetch) st).images ↔
        x ∈ refCids (l.foldl (summaryStep ifetch) st).pieces := by
  intro l
  induction l with
  | nil => exact fun st _ hiff => hiff
  | cons r t ih =>
    intro st hC hiff
    rw [List.foldl_cons]
    exact ih (summaryStep ifetch st r) (summaryStep_cacheOk ifetch st r hC)
      (summaryStep_cidIff ifetch st r nef hC hiff)

theorem detailTag_failed (ifetch : String → Option String)
    (cache : List (String × Option String)) (r : DailyForecastRecord) (c : Int)
    (hC : CacheOk ifetch cache) (hic : r.icon = some c) (hc0 : c ≠ 0)
    (hfail : ifetch (zfill2 (toString c)) = none) :
    detailTag cache r = ImgTag.unavailableDesc r.weather_desc := by
  simp only [detailTag, hic, if_pos hc0]
  cases hl : cache.lookup (zfill2 (toString c)) with
  | none => rfl
  | some cached =>
    cases cached with
    | some b =>
      have := hC _ _ hl
      rw [hfail] at this
      exact absurd this (fun h => Option.noConfusion h)
    | none => rfl

theorem detailTag_success (cache : List (String × Option String)) (r : DailyForecastRecord)
    (c : Int) (b : String) (hic : r.icon = some c) (hc0 : c ≠ 0)
    (hlk : cache.lookup (zfill2 (toString c)) = some (some b)) (hb : b ≠ "") :
    detailTag cache r = ImgTag.img (mkCid r.date_str (zfill2 (toString c))) r.weather_desc := by
  simp only [detailTag, hic, if_pos hc0, hlk, if_pos hb]

theorem detail_ref_char (cache : List (String × Option String))
    (records : List DailyForecastRecord) (cid : String)
    (hcid : cid ∈ refCids (records.map (fun r => HtmlPiece.detail r (detailTag cache r)))) :
    ∃ r ∈ records, ∃ c b, r.icon = some c ∧ c ≠ 0 ∧
      cache.lookup (zfill2 (toString c)) = some (some b) ∧ b ≠ "" ∧
      cid = mkCid r.date_str (zfill2 (toString c)) := by
  rcases List.mem_flatMap.mp hcid with ⟨piece, hpiece, href⟩
  rcases List.mem_map.mp hpiece with ⟨r, hr, rfl⟩
  cases hic : r.icon with
  | none =>
    simp only [detailTag, hic, cidRefs] at href
    exact absurd href (List.not_mem_nil _)
  | some c =>
    by_cases hc0 : c = 0
    · subst hc0
      simp only [detailTag, hic, if_neg (fun h : (0 : Int) ≠ 0 => h rfl), cidRefs] at href
      exact absurd href (List.not_mem_nil _)
    · cases hl : cache.lookup (zfill2 (toString c)) with
      | none =>
        simp only [detailTag, hic, if_pos hc0, hl, cidRefs] at href
        exact absurd href (List.not_mem_nil _)
      | some cached =>
        cases cached with
        | some b =>
          by_cases hb : b ≠ ""
          · simp only [detailTag, hic, if_pos hc0, hl, if_pos hb, cidRefs,
              List.mem_singleton] at href
            exact ⟨r, hr, c, b, hic, hc0, hl, hb, href⟩
          · simp only [detailTag, hic, if_pos hc0, hl, if_neg hb, cidRefs] at href
            exact absurd href (List.not_mem_nil _)
        | none =>
          simp only [detailTag, hic, if_pos hc0, hl, cidRefs] at href
          exact absurd href (List.not_mem_nil _)

theorem summaryStep_key_present (ifetch : String → Option String) (st : RenderSt)
    (r : DailyForecastRecord) (c : Int) (hic : r.icon = some c) (hc0 : c ≠ 0) :
    (summaryStep ifetch st r).cache.lookup (zfill2 (toString c)) ≠ none := by
  simp only [summaryStep, hic, if_pos hc0]
  cases hl : st.cache.lookup (zfill2 (toString c)) with
  | none =>
    cases hf : ifetch (zfill2 (toString c)) with
    | some b =>
      simp only [updateFor, hl, hf]
      rw [lookup_cons_self]
      exact fun h => Option.noConfusion h
    | none =>
      simp only [updateFor, hl, hf]
      rw [lookup_cons_self]
      exact fun h => Option.noConfusion h
  | some cached =>
    cases cached with
    | some b =>
      by_cases hcond : b ≠ "" ∧ mkCid r.date_str (zfill2 (toString c)) ∉ imgCids st.images
      · simp only [updateFor, hl, if_pos hcond]
        exact fun h => Option.noConfusion h
      · simp only [updateFor, hl, if_neg hcond]
        exact fun h => Option.noConfusion h
    | none =>
      simp only [updateFor, hl]
      exact fun h => Option.noConfusion h

theorem summaryFold_cache_stable (ifetch : String → Option String) :
    ∀ (l : List DailyForecastRecord) (st : RenderSt) (x : String) (v : Option String),
      st.cache.lookup x = some v →
      (l.foldl (summaryStep ifetch) st).cache.lookup x = some v := by
  intro l
  induction l with
  | nil => exact fun st x v hv => hv
  | cons r t ih =>
    intro st x v hv
    rw [List.foldl_cons]
    exact ih (summaryStep ifetch st r) x v (summaryStep_cache_stable ifetch st r x v hv)

theorem summaryFold_key_present (ifetch : String → Option String) :
    ∀ (l : List DailyForecastRecord) (st : RenderSt), ∀ r ∈ l, ∀ c : Int,
      r.icon = some c → c ≠ 0 →
      (l.foldl (summaryStep ifetch) st).cache.lookup (zfill2 (toString c)) ≠ none := by
  intro l
  induction l with
  | nil => exact fun st r hr => absurd hr (List.not_mem_nil _)
  | cons r0 t ih =>
    intro st r hr c hic hc0
    rw [List.foldl_cons]
    rcases List.mem_cons.mp hr with rfl | hrt
    · have h1 := summaryStep_key_present ifetch st r c hic hc0
      rcases Option.ne_none_iff_exists'.mp h1 with ⟨v, hv⟩
      have h2 := summaryFold_cache_stable ifetch t (summaryStep ifetch st r) _ v hv
      rw [h2]
      exact fun h => Option.noConfusion h
    · exact ih (summaryStep ifetch st r0) r hrt c hic hc0

theorem summaryStep_fallback_mem (ifetch : String → Option String) (st : RenderSt)
    (r : DailyForecastRecord) (c : Int) (hC : CacheOk ifetch st.cache)
    (hic : r.icon = some c) (hc0 : c ≠ 0) (hfail : ifetch (zfill2 (toString c)) = none) :
    HtmlPiece.summaryFallback r.day_name r.weather_desc ∈ (summaryStep ifetch st r).pieces := by
  simp only [summaryStep, hic, if_pos hc0]
  refine List.mem_append_right _ ?_
  cases hl : st.cache.lookup (zfill2 (toString c)) with
  | none =>
    simp only [updateFor, hl, hfail, summaryPiece, lookup_cons_self]
    exact List.mem_singleton.mpr rfl
  | some cached =>
    cases cached with
    | some b =>
      have := hC _ _ hl
      rw [hfail] at this
      exact absurd this (fun h => Option.noConfusion h)
    | none =>
      simp only [updateFor, hl, summaryPiece]
      exact List.mem_singleton.mpr rfl

theorem summaryFold_fallback_mem (ifetch : String → Option String) :
    ∀ (l : List DailyForecastRecord) (st : RenderSt), CacheOk ifetch st.cache →
      ∀ r ∈ l, ∀ c : Int, r.icon = some c → c ≠ 0 →
        ifetch (zfill2 (toString c)) = none →
        HtmlPiece.summaryFallback r.day_name r.weather_desc ∈
          (l.foldl (summaryStep ifetch) st).pieces := by
  intro l
  induction l with
  | nil => exact fun st _ r hr => absurd hr (List.not_mem_nil _)
  | cons r0 t ih =>
    intro st hC r hr c hic hc0 hfail
    rw [List.foldl_cons]
    rcases List.mem_cons.mp hr with rfl | hrt
    · exact summaryFold_pieces_mono ifetch t _ _
        (summaryStep_fallback_mem ifetch st r c hC hic hc0 hfail)
    · exact ih (summaryStep ifetch st r0) (summaryStep_cacheOk ifetch st r0 hC) r hrt c
        hic hc0 hfail

/-- The summary-loop state reached by `renderForecast`. -/
def summaryState (ifetch : String → Option String) (records : List DailyForecastRecord) :
    RenderSt :=
  records.foldl (summaryStep ifetch) ⟨[], [], [], []⟩

theorem renderForecast_images (ifetch : String → Option String)
    (records : List DailyForecastRecord) (city : String) :
    (renderForecast ifetch records city).images = (summaryState ifetch records).images := rfl

theorem renderForecast_fetches (ifetch : String → Option String)
    (records : List DailyForecastRecord) (city : String) :
    (renderForecast ifetch records city).fetches = (summaryState ifetch records).fetches := rfl

theorem renderForecast_refCids (ifetch : String → Option String)
    (records : List DailyForecastRecord) (city : String) :
    refCids (renderForecast ifetch records city).pieces =
      refCids (summaryState ifetch records).pieces ++
        refCids (records.map (fun r =>
          HtmlPiece.detail r (detailTag (summaryState ifetch records).cache r))) := by
  show refCids ([HtmlPiece.header records.length city] ++ (summaryState ifetch records).pieces ++
    [HtmlPiece.endSummary] ++ records.map (fun r =>
      HtmlPiece.detail r (detailTag (summaryState ifetch records).cache r)) ++
    [HtmlPiece.footer]) = _
  rw [refCids_append, refCids_append, refCids_append, refCids_append]
  have h1 : refCids [HtmlPiece.header records.length city] = [] := rfl
  have h2 : refCids [HtmlPiece.endSummary] = [] := rfl
  have h3 : refCids [HtmlPiece.footer] = [] := rfl
  rw [h1, h2, h3]
  simp

theorem renderForecast_inv (ifetch : String → Option String)
    (records : List DailyForecastRecord) (_city : String) :
    SummaryInv ifetch records (summaryState ifetch records) :=
  summaryFold_inv ifetch records records ⟨[], [], [], []⟩ (fun _ hx => hx)
    (summaryInv_init ifetch records)

theorem renderForecast_detail_mem (ifetch : String → Option String)
    (records : List DailyForecastRecord) (city : String) (r : DailyForecastRecord)
    (hr : r ∈ records) :
    HtmlPiece.detail r (detailTag (summaryState ifetch records).cache r) ∈
      (renderForecast ifetch records city).pieces := by
  show _ ∈ [HtmlPiece.header records.length city] ++ (summaryState ifetch records).pieces ++
    [HtmlPiece.endSummary] ++ records.map (fun r =>
      HtmlPiece.detail r (detailTag (summaryState ifetch records).cache r)) ++
    [HtmlPiece.footer]
  refine List.mem_append_left _ (List.mem_append_right _ ?_)
  exact List.mem_map_of_mem _ hr

theorem renderForecast_summary_pieces_mem (ifetch : String → Option String)
    (records : List DailyForecastRecord) (city : String) (piece : HtmlPiece)
    (hp : piece ∈ (summaryState ifetch records).pieces) :
    piece ∈ (renderForecast ifetch records city).pieces := by
  show piece ∈ [HtmlPiece.header records.length city] ++ (summaryState ifetch records).pieces ++
    [HtmlPiece.endSummary] ++ records.map (fun r =>
      HtmlPiece.detail r (detailTag (summaryState ifetch records).cache r)) ++
    [HtmlPiece.footer]
  refine List.mem_append_left _ (List.mem_append_left _ (List.mem_append_left _
    (List.mem_append_right _ hp)))

theorem get_wind_direction_mem_directions (d : Int) :
    get_wind_direction (WindInput.num d) ∈ directions := by
  have hnn : 0 ≤ (ratTrunc (((d : ℚ) + 11.25) / 22.5)).emod 16 :=
    Int.emod_nonneg _ (by norm_num)
  have hlt : (ratTrunc (((d : ℚ) + 11.25) / 22.5)).emod 16 < 16 :=
    Int.emod_lt_of_pos _ (by norm_num)
  have hidx : ((ratTrunc (((d : ℚ) + 11.25) / 22.5)).emod 16).toNat < directions.length := by
    have hle : directions.length = 16 := rfl
    omega
  rw [get_wind_direction, List.getD_eq_getElem directions "N/A" hidx]
  exact List.getElem_mem hidx

theorem get_wind_direction_periodic (d : Int) (hd : 0 ≤ d) :
    get_wind_direction (WindInput.num (d + 360)) = get_wind_direction (WindInput.num d) := by
  have hq1 : (0 : ℚ) ≤ ((d : ℚ) + 11.25) / 22.5 := by
    have : (0 : ℚ) ≤ (d : ℚ) := by exact_mod_cast hd
    positivity
  have hq2 : (0 : ℚ) ≤ (((d + 360 : Int) : ℚ) + 11.25) / 22.5 := by
    have : (0 : ℚ) ≤ ((d + 360 : Int) : ℚ) := by
      have : (0 : Int) ≤ d + 360 := by omega
      exact_mod_cast this
    positivity
  show directions.getD ((ratTrunc ((((d + 360 : Int) : ℚ) + 11.25) / 22.5)).emod 16).toNat "N/A" =
    directions.getD (((ratTrunc (((d : ℚ) + 11.25) / 22.5)).emod 16).toNat) "N/A"
  rw [ratTrunc, ratTrunc, if_pos hq1, if_pos hq2, ratFloor_eq_floor, ratFloor_eq_floor]
  have heq : (((d + 360 : Int) : ℚ) + 11.25) / 22.5 = ((d : ℚ) + 11.25) / 22.5 + ((16 : Int) : ℚ) := by
    push_cast
    ring
  rw [heq, Int.floor_add_int]
  congr 1
  show ((⌊((d : ℚ) + 11.25) / 22.5⌋ + 16) % 16).toNat = (⌊((d : ℚ) + 11.25) / 22.5⌋ % 16).toNat
  omega

/-- C8 (amended): `get_wind_direction` returns one of the sixteen canonical
compass labels for every integer degree (in particular on [0,360)), is
periodic with period 360 for every nonnegative integer degree, and returns
"N/A" for an absent or non-numeric input, never raising. (As stated, with
periodicity over all integers, the claim fails: Python's `int()` truncates
toward zero, so bearings in (-22.5, -11.25] map to label index 0; see the
counterexample at -12.) -/
theorem c8_wind_direction (d : Int) (hd : 0 ≤ d) :
    get_wind_direction (WindInput.num d) ∈ directions ∧
    get_wind_direction (WindInput.num (d + 360)) = get_wind_direction (WindInput.num d) ∧
    get_wind_direction WindInput.none = "N/A" ∧
    get_wind_direction WindInput.nonnum = "N/A" :=
  ⟨get_wind_direction_mem_directions d, get_wind_direction_periodic d hd, rfl, rfl⟩

/-- C8 witness: the amended claim instantiated at 45 degrees. -/
theorem c8_wind_direction_witness :
    (0 : Int) ≤ 45 ∧
    (get_wind_direction (WindInput.num 45) ∈ directions ∧
      get_wind_direction (WindInput.num (45 + 360)) = get_wind_direction (WindInput.num 45) ∧
      get_wind_direction WindInput.none = "N/A" ∧
      get_wind_direction WindInput.nonnum = "N/A") :=
  ⟨by decide, c8_wind_direction 45 (by decide)⟩

/-- C8 counterexample: the claim asserts period-360 periodicity for every
integer degree, but `get_wind_direction` maps -12 to "N" (truncation toward
zero) while -12 + 360 = 348 maps to "NNW". -/
theorem c8_counterexample :
    get_wind_direction (WindInput.num (-12 + 360)) ≠ get_wind_direction (WindInput.num (-12)) := by
  have k348 : ratTrunc ((((348 : Int) : ℚ) + 11.25) / 22.5) = 15 := by
    rw [ratTrunc, if_pos (by norm_num), ratFloor_eq_floor]
    exact Int.floor_eq_iff.mpr (by norm_num)
  have km12 : ratTrunc ((((-12 : Int) : ℚ) + 11.25) / 22.5) = 0 := by
    rw [ratTrunc, if_neg (by norm_num), ratFloor_eq_floor]
    have h0 : ⌊-((((-12 : Int) : ℚ) + 11.25) / 22.5)⌋ = 0 := Int.floor_eq_iff.mpr (by norm_num)
    rw [h0]
    norm_num
  have h1 : get_wind_direction (WindInput.num (-12 + 360)) = "NNW" := by
    show directions.getD ((ratTrunc ((((-12 + 360 : Int) : ℚ) + 11.25) / 22.5)).emod 16).toNat
      "N/A" = "NNW"
    rw [show ((-12 + 360 : Int) : ℚ) = ((348 : Int) : ℚ) by norm_num, k348]
    decide
  have h2 : get_wind_direction (WindInput.num (-12)) = "N" := by
    show directions.getD ((ratTrunc ((((-12 : Int) : ℚ) + 11.25) / 22.5)).emod 16).toNat
      "N/A" = "N"
    rw [km12]
    decide
  rw [h1, h2]
  decide

/-- C9 evaluated at the failing input: for a raw record whose `Day` object
lacks `IconPhrase`, the source computes
`day_data.get("IconPhrase", "N/A").capitalize()`, and Python's `capitalize`
lower-cases everything after the first character, so the weather description
is `"N/a"`, not the `"N/A"` the specification states. -/
theorem c9_capitalize_default :
    (parseRecord {}).weather_desc = pyCapitalize "N/A" ∧
    (parseRecord {}).weather_desc = "N/a" ∧
    (parseRecord {}).weather_desc ≠ "N/A" :=
  ⟨rfl, by decide, by decide⟩

/-- C7: a requested day count outside {1,5,10,15} (such as 7) is not
rejected: the forecast URL is built with 5, a warning is logged, and the
returned records are those of a 5-day request. -/
theorem c7_days_coerced (provider : String → ForecastHttp) (location_key : String)
    (days : Int) (h : days ∉ supportedDays) :
    (get_accuweather_forecast provider location_key days).url = forecastUrl 5 location_key ∧
    (get_accuweather_forecast provider location_key days).warned = true ∧
    (get_accuweather_forecast provider location_key days).records? =
      (get_accuweather_forecast provider location_key 5).records? := by
  have he : effectiveDays days = 5 := if_neg h
  have he5 : effectiveDays 5 = 5 := if_pos (by decide)
  have hw : decide (days ∉ supportedDays) = true := decide_eq_true h
  simp only [get_accuweather_forecast, he, he5, hw]
  rcases hp : provider (forecastUrl 5 location_key) with _ | ⟨⟨df⟩⟩
  · exact ⟨rfl, rfl, rfl⟩
  · cases df with
    | none => exact ⟨rfl, rfl, rfl⟩
    | some raws => exact ⟨rfl, rfl, rfl⟩

/-- C7 witness: the claim instantiated at a 7-day request against a failing
provider. -/
theorem c7_days_coerced_witness :
    (7 : Int) ∉ supportedDays ∧
    ((get_accuweather_forecast (fun _ => ForecastHttp.fail) "KEY" 7).url =
        forecastUrl 5 "KEY" ∧
      (get_accuweather_forecast (fun _ => ForecastHttp.fail) "KEY" 7).warned = true ∧
      (get_accuweather_forecast (fun _ => ForecastHttp.fail) "KEY" 7).records? =
        (get_accuweather_forecast (fun _ => ForecastHttp.fail) "KEY" 5).records?) :=
  ⟨by decide, c7_days_coerced (fun _ => ForecastHttp.fail) "KEY" 7 (by decide)⟩

theorem round1_zero : round1 0 = 0 := by
  have h0 : ratFloor 0 = 0 := by
    rw [ratFloor_eq_floor]
    exact Int.floor_zero
  norm_num [round1, pyRoundInt, h0]

/-- C5: within a response whose forecast array is present, every raw record
yields a normalized record (the parse never aborts), and missing nested
fields degrade individually: an absent `UVIndex` entry yields
`uv_index = "N/A"` and changes no other field, absent rain/snow/ice values
yield `precipitation = 0`, and an absent high/low temperature value yields
0. -/
theorem c5_field_defaults :
    (∀ raw : RawDaily, ∀ ap : Option (List RawAP),
      (ap.getD []).find? (fun item => item.name? == some "UVIndex") = none →
      parseRecord { raw with airAndPollen? := ap } =
        { parseRecord raw with uv_index := "N/A" }) ∧
    (∀ raw : RawDaily,
      (raw.day?.getD {}).rain? = none → (raw.day?.getD {}).snow? = none →
      (raw.day?.getD {}).ice? = none → (parseRecord raw).precipitation = 0) ∧
    (∀ raw : RawDaily, ((raw.temperature?.getD {}).maximum?.getD {}).value? = none →
      (parseRecord raw).high_temp = 0) ∧
    (∀ raw : RawDaily, ((raw.temperature?.getD {}).minimum?.getD {}).value? = none →
      (parseRecord raw).low_temp = 0) ∧
    (∀ raws : List RawDaily, (raws.map parseRecord).length = raws.length) := by
  refine ⟨?_, ?_, ?_, ?_, ?_⟩
  · intro raw ap hap
    simp only [parseRecord, hap]
  · intro raw h1 h2 h3
    simp [parseRecord, h1, h2, h3, round1_zero]
  · intro raw h
    simp [parseRecord, h, round1_zero]
  · intro raw h
    simp [parseRecord, h, round1_zero]
  · intro raws
    simp

/-- C5 witness: the defaults instantiated at the empty raw record. -/
theorem c5_field_defaults_witness :
    (((none : Option (List RawAP)).getD []).find?
      (fun item => item.name? == some "UVIndex") = none) ∧
    parseRecord { ({} : RawDaily) with airAndPollen? := none } =
      { parseRecord ({} : RawDaily) with uv_index := "N/A" } ∧
    (parseRecord ({} : RawDaily)).precipitation = 0 ∧
    (parseRecord ({} : RawDaily)).high_temp = 0 ∧
    (parseRecord ({} : RawDaily)).low_temp = 0 :=
  ⟨rfl, c5_field_defaults.1 {} none rfl, c5_field_defaults.2.1 {} rfl rfl rfl,
    c5_field_defaults.2.2.1 {} rfl, c5_field_defaults.2.2.2.1 {} rfl⟩

/-- C1: for a well-formed multi-day payload (records with pairwise distinct
sort keys, undated records keyed by the minimal date) and a supported
requested day count, `get_accuweather_forecast` returns the normalized
sequence, sorted strictly ascending by date, of length exactly
`min requestedDays providerReturnedCount`. -/
theorem c1_sorted_truncated (provider : String → ForecastHttp) (location_key : String)
    (days : Int) (raws : List RawDaily) (hdays : days ∈ supportedDays)
    (hresp : provider (forecastUrl days location_key) = ForecastHttp.ok ⟨some raws⟩)
    (hwf : (raws.map parseRecord).Pairwise (fun a b => sortKey a ≠ sortKey b)) :
    (get_accuweather_forecast provider location_key days).records? =
      some (normalizeRecords raws days) ∧
    (normalizeRecords raws days).Pairwise (fun a b => sortKey a < sortKey b) ∧
    (normalizeRecords raws days).length = min days.toNat raws.length := by
  have he : effectiveDays days = days := if_pos hdays
  refine ⟨?_, ?_, ?_⟩
  · simp only [get_accuweather_forecast, he, hresp]
  · have hs : List.Sorted recLe (List.insertionSort recLe (raws.map parseRecord)) :=
      List.sorted_insertionSort recLe _
    have hperm := List.perm_insertionSort recLe (raws.map parseRecord)
    have hne : (List.insertionSort recLe (raws.map parseRecord)).Pairwise
        (fun a b => sortKey a ≠ sortKey b) :=
      (List.Perm.pairwise_iff (fun h => Ne.symm h) hperm).mpr hwf
    have hlt : (List.insertionSort recLe (raws.map parseRecord)).Pairwise
        (fun a b => sortKey a < sortKey b) :=
      List.Pairwise.imp (fun hab => lt_of_le_of_ne hab.1 hab.2) (hs.and hne)
    exact List.Pairwise.sublist (List.take_sublist _ _) hlt
  · simp [normalizeRecords, List.length_take, List.length_insertionSort]

/-- C1 witness: a two-record payload delivered out of order, requested with
one day. -/
theorem c1_sorted_truncated_witness :
    ((1 : Int) ∈ supportedDays) ∧
    (List.map parseRecord [⟨some 172800, none, none, none, none⟩,
      ⟨some 86400, none, none, none, none⟩]).Pairwise (fun a b => sortKey a ≠ sortKey b) ∧
    ((get_accuweather_forecast
        (fun _ => ForecastHttp.ok ⟨some [⟨some 172800, none, none, none, none⟩,
          ⟨some 86400, none, none, none, none⟩]⟩) "KEY" 1).records? =
      some (normalizeRecords [⟨some 172800, none, none, none, none⟩,
        ⟨some 86400, none, none, none, none⟩] 1) ∧
    (normalizeRecords [⟨some 172800, none, none, none, none⟩,
      ⟨some 86400, none, none, none, none⟩] 1).Pairwise (fun a b => sortKey a < sortKey b) ∧
    (normalizeRecords [⟨some 172800, none, none, none, none⟩,
      ⟨some 86400, none, none, none, none⟩] 1).length =
      min (1 : Int).toNat ([⟨some 172800, none, none, none, none⟩,
        ⟨some 86400, none, none, none, none⟩] : List RawDaily).length) :=
  ⟨by decide, by decide,
    c1_sorted_truncated _ "KEY" 1 _ (by decide) rfl (by decide)⟩

/-- C10: a forecast response whose `DailyForecasts` array is present but
empty makes `get_accuweather_forecast` return an empty list, and the run
then behaves like a fetch failure: nothing is rendered (no icon fetches) and
no email is sent. -/
theorem c10_empty_forecast_no_email (cfg : Config) (locResp : LocHttp)
    (provider : String → ForecastHttp) (ifetch : String → Option String) (key : String)
    (hmiss : configMissing cfg = false)
    (hdays : 1 ≤ cfg.forecast_days ∧ cfg.forecast_days ≤ 15)
    (hloc : get_accuweather_location_key locResp = some key) (hkey : key ≠ "")
    (hresp : provider (forecastUrl (effectiveDays cfg.forecast_days) key) =
      ForecastHttp.ok ⟨some []⟩) :
    (get_accuweather_forecast provider key cfg.forecast_days).records? = some [] ∧
    (WeatherAlert cfg locResp provider ifetch).records? = some [] ∧
    (WeatherAlert cfg locResp provider ifetch).email? = none ∧
    (WeatherAlert cfg locResp provider ifetch).iconFetches = [] := by
  have hkb : (key == "") = false := beq_eq_false_iff_ne.mpr hkey
  have hfr : get_accuweather_forecast provider key cfg.forecast_days =
      ⟨forecastUrl (effectiveDays cfg.forecast_days) key,
        decide (cfg.forecast_days ∉ supportedDays), some []⟩ := by
    simp only [get_accuweather_forecast, hresp]
    simp [normalizeRecords]
  refine ⟨by rw [hfr], ?_, ?_, ?_⟩ <;>
    simp [WeatherAlert, hmiss, hdays.1, hdays.2, hloc, pyTruthyKey, hkb, hfr]

/-- C10 witness: an empty forecast array on a valid configuration. -/
theorem c10_empty_forecast_no_email_witness :
    configMissing ⟨"k", "u", "p", "t", "51.5", "-0.1", "Springfield", 5⟩ = false ∧
    get_accuweather_location_key (LocHttp.resp 200 (some (LocJson.obj (some "KEY")))) =
      some "KEY" ∧
    ((get_accuweather_forecast (fun _ => ForecastHttp.ok ⟨some []⟩) "KEY" 5).records? =
        some [] ∧
      (WeatherAlert ⟨"k", "u", "p", "t", "51.5", "-0.1", "Springfield", 5⟩
        (LocHttp.resp 200 (some (LocJson.obj (some "KEY"))))
        (fun _ => ForecastHttp.ok ⟨some []⟩) (fun _ => none)).records? = some [] ∧
      (WeatherAlert ⟨"k", "u", "p", "t", "51.5", "-0.1", "Springfield", 5⟩
        (LocHttp.resp 200 (some (LocJson.obj (some "KEY"))))
        (fun _ => ForecastHttp.ok ⟨some []⟩) (fun _ => none)).email? = none ∧
      (WeatherAlert ⟨"k", "u", "p", "t", "51.5", "-0.1", "Springfield", 5⟩
        (LocHttp.resp 200 (some (LocJson.obj (some "KEY"))))
        (fun _ => ForecastHttp.ok ⟨some []⟩) (fun _ => none)).iconFetches = []) :=
  ⟨by decide, by decide,
    c10_empty_forecast_no_email ⟨"k", "u", "p", "t", "51.5", "-0.1", "Springfield", 5⟩
      (LocHttp.resp 200 (some (LocJson.obj (some "KEY"))))
      (fun _ => ForecastHttp.ok ⟨some []⟩) (fun _ => none) "KEY" (by decide) (by decide)
      (by decide) (by decide) rfl⟩

/-- A geoposition outcome that lacks a usable location key, as the source
treats it: a network failure, an HTTP status `raise_for_status` raises on
(4xx/5xx), an unparsable or non-object body, or an object whose `"Key"` is
absent or empty. -/
def locFailure : LocHttp → Prop
  | LocHttp.netError => True
  | LocHttp.resp s body =>
    (400 ≤ s ∧ s < 600) ∨ body = none ∨ body = some LocJson.nonDict ∨
      body = some (LocJson.obj none) ∨ body = some (LocJson.obj (some ""))

/-- C6 (amended): for every geoposition response that lacks a non-empty
location-key field, or is an HTTP 4xx/5xx error, or a network failure, the
resolver's result is falsy (the failure signal the caller tests), the run
halts, no forecast request is issued and no email is sent. (As stated the
claim fails for other non-2xx statuses: `raise_for_status` only raises on
4xx/5xx, so e.g. a 301 response carrying a key is accepted; see the
counterexample.) -/
theorem c6_resolution_failure_halts (cfg : Config) (locResp : LocHttp)
    (provider : String → ForecastHttp) (ifetch : String → Option String)
    (hmiss : configMissing cfg = false)
    (hdays : 1 ≤ cfg.forecast_days ∧ cfg.forecast_days ≤ 15)
    (hfail : locFailure locResp) :
    pyTruthyKey (get_accuweather_location_key locResp) = false ∧
    (WeatherAlert cfg locResp provider ifetch).forecastUrl? = none ∧
    (WeatherAlert cfg locResp provider ifetch).records? = none ∧
    (WeatherAlert cfg locResp provider ifetch).email? = none := by
  have hkey : pyTruthyKey (get_accuweather_location_key locResp) = false := by
    cases locResp with
    | netError => rfl
    | resp s body =>
      by_cases hs : 400 ≤ s ∧ s < 600
      · simp [get_accuweather_location_key, hs, pyTruthyKey]
      · rcases hfail with h4 | hb | hb | hb | hb
        · exact absurd h4 hs
        · subst hb
          simp [get_accuweather_location_key, hs, pyTruthyKey]
        · subst hb
          simp [get_accuweather_location_key, hs, pyTruthyKey]
        · subst hb
          simp [get_accuweather_location_key, hs, pyTruthyKey]
        · subst hb
          simp [get_accuweather_location_key, hs, pyTruthyKey]
  refine ⟨hkey, ?_, ?_, ?_⟩ <;>
    simp [WeatherAlert, hmiss, hdays.1, hdays.2, hkey]

/-- C6 witness: a 404 geoposition response on a valid configuration. -/
theorem c6_resolution_failure_halts_witness :
    configMissing ⟨"k", "u", "p", "t", "51.5", "-0.1", "Springfield", 5⟩ = false ∧
    locFailure (LocHttp.resp 404 none) ∧
    (pyTruthyKey (get_accuweather_location_key (LocHttp.resp 404 none)) = false ∧
      (WeatherAlert ⟨"k", "u", "p", "t", "51.5", "-0.1", "Springfield", 5⟩
        (LocHttp.resp 404 none) (fun _ => ForecastHttp.fail) (fun _ => none)).forecastUrl? =
        none ∧
      (WeatherAlert ⟨"k", "u", "p", "t", "51.5", "-0.1", "Springfield", 5⟩
        (LocHttp.resp 404 none) (fun _ => ForecastHttp.fail) (fun _ => none)).records? = none ∧
      (WeatherAlert ⟨"k", "u", "p", "t", "51.5", "-0.1", "Springfield", 5⟩
        (LocHttp.resp 404 none) (fun _ => ForecastHttp.fail) (fun _ => none)).email? = none) :=
  ⟨by decide, Or.inl (by decide),
    c6_resolution_failure_halts ⟨"k", "u", "p", "t", "51.5", "-0.1", "Springfield", 5⟩
      (LocHttp.resp 404 none) (fun _ => ForecastHttp.fail) (fun _ => none) (by decide)
      (by decide) (Or.inl (by decide))⟩

/-- C6 counterexample: the claim declares every non-2xx geoposition response
a resolution failure, but `raise_for_status` only raises on 4xx/5xx: a 301
response carrying a non-empty key is accepted, and the run proceeds to issue
the forecast request. -/
theorem c6_counterexample :
    get_accuweather_location_key (LocHttp.resp 301 (some (LocJson.obj (some "ABC")))) =
      some "ABC" ∧
    (WeatherAlert ⟨"k", "u", "p", "t", "51.5", "-0.1", "Springfield", 5⟩
        (LocHttp.resp 301 (some (LocJson.obj (some "ABC"))))
        (fun _ => ForecastHttp.fail) (fun _ => none)).forecastUrl? =
      some (forecastUrl 5 "ABC") := by
  constructor
  · decide
  · decide

/-- C2 (amended): provided every successful icon fetch returns nonempty
bytes, the content identifiers referenced via `cid:` links in the rendered
pieces are exactly those of the inline-image attachment list, and a record
whose icon fetch failed contributes neither a reference nor an attachment.
(As stated the claim fails when a fetch succeeds with an empty body: the
attachment is appended but Python truthiness renders the fallback, leaving
an unreferenced attachment; see the counterexample.) -/
theorem c2_cid_sets_match (ifetch : String → Option String)
    (records : List DailyForecastRecord) (city : String)
    (nef : ∀ cs b, ifetch cs = some b → b ≠ "")
    (hcodes : ∀ r ∈ records, ∀ c : Int, r.icon = some c → (zfill2 (toString c)).length = 2) :
    (∀ x, x ∈ imgCids (renderForecast ifetch records city).images ↔
      x ∈ refCids (renderForecast ifetch records city).pieces) ∧
    (∀ r ∈ records, ∀ c : Int, r.icon = some c → c ≠ 0 →
      ifetch (zfill2 (toString c)) = none →
      mkCid r.date_str (zfill2 (toString c)) ∉
        imgCids (renderForecast ifetch records city).images ∧
      mkCid r.date_str (zfill2 (toString c)) ∉
        refCids (renderForecast ifetch records city).pieces) := by
  have hinv := renderForecast_inv ifetch records city
  have hinitC : CacheOk ifetch (⟨[], [], [], []⟩ : RenderSt).cache :=
    (summaryInv_init ifetch records).cacheOk
  have hiff : ∀ x, x ∈ imgCids (summaryState ifetch records).images ↔
      x ∈ refCids (summaryState ifetch records).pieces :=
    summaryFold_cidIff ifetch nef records ⟨[], [], [], []⟩ hinitC
      (fun x => by simp [imgCids, refCids])
  constructor
  · intro x
    rw [renderForecast_images, renderForecast_refCids]
    constructor
    · intro hx
      exact List.mem_append_left _ ((hiff x).mp hx)
    · intro hx
      rcases List.mem_append.mp hx with hx | hx
      · exact (hiff x).mpr hx
      · rcases detail_ref_char _ records x hx with ⟨r, hr, c, b, hic, hc0, hlk, hb, rfl⟩
        have hfb : ifetch (zfill2 (toString c)) = some b := hinv.cacheOk _ _ hlk
        exact summaryFold_cid_mem ifetch records ⟨[], [], [], []⟩ hinitC r hr c b hic hc0 hfb hb
  · intro r hr c hic hc0 hfail
    have himg : mkCid r.date_str (zfill2 (toString c)) ∉
        imgCids (summaryState ifetch records).images := by
      intro hmem
      rcases List.mem_map.mp hmem with ⟨p, hp, hpeq⟩
      rcases hinv.prov p hp with ⟨r', hr', c', hic', hc0', hcid', hf'⟩
      have heq : mkCid r'.date_str (zfill2 (toString c')) =
          mkCid r.date_str (zfill2 (toString c)) := hcid'.symm.trans hpeq
      rcases mkCid_inj _ _ _ _
        (by rw [hcodes r' hr' c' hic', hcodes r hr c hic]) heq with ⟨_, hcs⟩
      rw [hcs, hfail] at hf'
      exact Option.noConfusion hf'
    refine ⟨by rw [renderForecast_images]; exact himg, ?_⟩
    rw [renderForecast_refCids]
    intro hmem
    rcases List.mem_append.mp hmem with hx | hx
    · exact himg ((hiff _).mpr hx)
    · rcases detail_ref_char _ records _ hx with ⟨r', hr', c', b, hic', hc0', hlk, hb, heq⟩
      have hfb : ifetch (zfill2 (toString c')) = some b := hinv.cacheOk _ _ hlk
      rcases mkCid_inj _ _ _ _
        (by rw [hcodes r hr c hic, hcodes r' hr' c' hic']) heq with ⟨_, hcs⟩
      rw [← hcs, hfail] at hfb
      exact Option.noConfusion hfb

/-- C2 witness: two records sharing one icon code against a fetch oracle
returning nonempty bytes. -/
theorem c2_cid_sets_match_witness :
    (∀ x, x ∈ imgCids (renderForecast (fun _ => some "B")
      [⟨"Sunny", some 1, 0, 0, 0, "N/A", "N/A", "N/A", 0, 0, "N/A", "N/A", "N/A", none,
        "d1", "Mon"⟩,
       ⟨"Cloudy", some 1, 0, 0, 0, "N/A", "N/A", "N/A", 0, 0, "N/A", "N/A", "N/A", none,
        "d2", "Tue"⟩] "Springfield").images ↔
      x ∈ refCids (renderForecast (fun _ => some "B")
      [⟨"Sunny", some 1, 0, 0, 0, "N/A", "N/A", "N/A", 0, 0, "N/A", "N/A", "N/A", none,
        "d1", "Mon"⟩,
       ⟨"Cloudy", some 1, 0, 0, 0, "N/A", "N/A", "N/A", 0, 0, "N/A", "N/A", "N/A", none,
        "d2", "Tue"⟩] "Springfield").pieces) ∧
    (∀ r ∈ ([⟨"Sunny", some 1, 0, 0, 0, "N/A", "N/A", "N/A", 0, 0, "N/A", "N/A", "N/A", none,
        "d1", "Mon"⟩,
       ⟨"Cloudy", some 1, 0, 0, 0, "N/A", "N/A", "N/A", 0, 0, "N/A", "N/A", "N/A", none,
        "d2", "Tue"⟩] : List DailyForecastRecord), ∀ c : Int, r.icon = some c → c ≠ 0 →
      (fun _ => some "B") (zfill2 (toString c)) = none →
      mkCid r.date_str (zfill2 (toString c)) ∉
        imgCids (renderForecast (fun _ => some "B")
      [⟨"Sunny", some 1, 0, 0, 0, "N/A", "N/A", "N/A", 0, 0, "N/A", "N/A", "N/A", none,
        "d1", "Mon"⟩,
       ⟨"Cloudy", some 1, 0, 0, 0, "N/A", "N/A", "N/A", 0, 0, "N/A", "N/A", "N/A", none,
        "d2", "Tue"⟩] "Springfield").images ∧
      mkCid r.date_str (zfill2 (toString c)) ∉
        refCids (renderForecast (fun _ => some "B")
      [⟨"Sunny", some 1, 0, 0, 0, "N/A", "N/A", "N/A", 0, 0, "N/A", "N/A", "N/A", none,
        "d1", "Mon"⟩,
       ⟨"Cloudy", some 1, 0, 0, 0, "N/A", "N/A", "N/A", 0, 0, "N/A", "N/A", "N/A", none,
        "d2", "Tue"⟩] "Springfield").pieces) :=
  c2_cid_sets_match (fun _ => some "B") _ "Springfield"
    (fun _ b h => by injection h with h2; subst h2; decide)
    (by
      intro r hr c hic
      fin_cases hr <;> (injection hic with h2; subst h2; decide))

/-- C2 counterexample: a successful icon fetch with an empty body yields an
attachment whose content identifier the HTML body never references. -/
theorem c2_counterexample :
    "summary_icon_d1_01" ∈ imgCids (renderForecast (fun _ => some "")
      [⟨"Sunny", some 1, 0, 0, 0, "N/A", "N/A", "N/A", 0, 0, "N/A", "N/A", "N/A", none,
        "d1", "Mon"⟩] "Springfield").images ∧
    "summary_icon_d1_01" ∉ refCids (renderForecast (fun _ => some "")
      [⟨"Sunny", some 1, 0, 0, 0, "N/A", "N/A", "N/A", 0, 0, "N/A", "N/A", "N/A", none,
        "d1", "Mon"⟩] "Springfield").pieces := by
  decide

/-- C3 (amended): within a run no icon code is fetched twice; and when the
shared code's fetch succeeded with nonempty bytes, two records sharing the
code (on distinct dates) are rendered under distinct content identifiers
whose attached bytes are identical. (As stated the claim fails for a
successful zero-byte fetch: only the first record's attachment is appended
and neither record is rendered with its identifier; see the
counterexample.) -/
theorem c3_icon_fetch_once_shared_bytes (ifetch : String → Option String)
    (records : List DailyForecastRecord) (city : String)
    (hcodes : ∀ r ∈ records, ∀ c : Int, r.icon = some c → (zfill2 (toString c)).length = 2)
    (r1 r2 : DailyForecastRecord) (hr1 : r1 ∈ records) (hr2 : r2 ∈ records) (c : Int)
    (h1 : r1.icon = some c) (h2 : r2.icon = some c) (hc0 : c ≠ 0)
    (hdates : r1.date_str ≠ r2.date_str) (b : String)
    (hf : ifetch (zfill2 (toString c)) = some b) (hb : b ≠ "") :
    (∀ x, (renderForecast ifetch records city).fetches.count x ≤ 1) ∧
    mkCid r1.date_str (zfill2 (toString c)) ≠ mkCid r2.date_str (zfill2 (toString c)) ∧
    (b, mkCid r1.date_str (zfill2 (toString c))) ∈ (renderForecast ifetch records city).images ∧
    (b, mkCid r2.date_str (zfill2 (toString c))) ∈
      (renderForecast ifetch records city).images := by
  have hinv := renderForecast_inv ifetch records city
  have hinitC : CacheOk ifetch (⟨[], [], [], []⟩ : RenderSt).cache :=
    (summaryInv_init ifetch records).cacheOk
  have pairmem : ∀ r ∈ records, r.icon = some c →
      (b, mkCid r.date_str (zfill2 (toString c))) ∈ (summaryState ifetch records).images := by
    intro r hr hic
    have hcid := summaryFold_cid_mem ifetch records ⟨[], [], [], []⟩ hinitC r hr c b hic hc0 hf hb
    rcases List.mem_map.mp hcid with ⟨p, hp, hpeq⟩
    rcases hinv.prov p hp with ⟨r', hr', c', hic', hc0', hcid', hf'⟩
    have heq : mkCid r'.date_str (zfill2 (toString c')) =
        mkCid r.date_str (zfill2 (toString c)) := hcid'.symm.trans hpeq
    rcases mkCid_inj _ _ _ _
      (by rw [hcodes r' hr' c' hic', hcodes r hr c hic]) heq with ⟨_, hcs⟩
    rw [hcs, hf] at hf'
    obtain ⟨pb, pc⟩ := p
    simp only at hpeq hcid'
    have hb1 : pb = b := (Option.some.inj hf').symm
    rw [← hpeq, ← hb1]
    exact hp
  refine ⟨?_, mkCid_ne_of_ne _ _ _ hdates, pairmem r1 hr1 h1, pairmem r2 hr2 h2⟩
  intro x
  rw [renderForecast_fetches]
  exact List.nodup_iff_count_le_one.mp hinv.nodupFetches x

/-- C3 witness: two records on distinct dates sharing icon code 1, fetched
successfully once. -/
theorem c3_icon_fetch_once_shared_bytes_witness :
    (∀ x, (renderForecast (fun _ => some "B")
      [⟨"Sunny", some 1, 0, 0, 0, "N/A", "N/A", "N/A", 0, 0, "N/A", "N/A", "N/A", none,
        "d1", "Mon"⟩,
       ⟨"Cloudy", some 1, 0, 0, 0, "N/A", "N/A", "N/A", 0, 0, "N/A", "N/A", "N/A", none,
        "d2", "Tue"⟩] "Springfield").fetches.count x ≤ 1) ∧
    mkCid "d1" (zfill2 (toString (1 : Int))) ≠ mkCid "d2" (zfill2 (toString (1 : Int))) ∧
    ("B", mkCid "d1" (zfill2 (toString (1 : Int)))) ∈ (renderForecast (fun _ => some "B")
      [⟨"Sunny", some 1, 0, 0, 0, "N/A", "N/A", "N/A", 0, 0, "N/A", "N/A", "N/A", none,
        "d1", "Mon"⟩,
       ⟨"Cloudy", some 1, 0, 0, 0, "N/A", "N/A", "N/A", 0, 0, "N/A", "N/A", "N/A", none,
        "d2", "Tue"⟩] "Springfield").images ∧
    ("B", mkCid "d2" (zfill2 (toString (1 : Int)))) ∈ (renderForecast (fun _ => some "B")
      [⟨"Sunny", some 1, 0, 0, 0, "N/A", "N/A", "N/A", 0, 0, "N/A", "N/A", "N/A", none,
        "d1", "Mon"⟩,
       ⟨"Cloudy", some 1, 0, 0, 0, "N/A", "N/A", "N/A", 0, 0, "N/A", "N/A", "N/A", none,
        "d2", "Tue"⟩] "Springfield").images :=
  c3_icon_fetch_once_shared_bytes (fun _ => some "B") _ "Springfield"
    (by
      intro r hr c hic
      fin_cases hr <;> (injection hic with h2; subst h2; decide))
    ⟨"Sunny", some 1, 0, 0, 0, "N/A", "N/A", "N/A", 0, 0, "N/A", "N/A", "N/A", none,
      "d1", "Mon"⟩
    ⟨"Cloudy", some 1, 0, 0, 0, "N/A", "N/A", "N/A", 0, 0, "N/A", "N/A", "N/A", none,
      "d2", "Tue"⟩
    (by decide) (by decide) 1 rfl rfl (by decide) (by decide) "B" rfl (by decide)

/-- C3 counterexample: with a successful zero-byte fetch for the shared
code, the second record's content identifier never reaches the attachment
list, contradicting the claim's "identical attached bytes" for both
records. -/
theorem c3_counterexample :
    ((fun _ : String => some "") (zfill2 (toString (1 : Int))) = some "") ∧
    mkCid "d2" (zfill2 (toString (1 : Int))) ∉ imgCids (renderForecast (fun _ => some "")
      [⟨"Sunny", some 1, 0, 0, 0, "N/A", "N/A", "N/A", 0, 0, "N/A", "N/A", "N/A", none,
        "d1", "Mon"⟩,
       ⟨"Cloudy", some 1, 0, 0, 0, "N/A", "N/A", "N/A", 0, 0, "N/A", "N/A", "N/A", none,
        "d2", "Tue"⟩] "Springfield").images :=
  ⟨rfl, by decide⟩

/-- C4: when the fetch for some truthy icon code fails, the failure is
cached and never retried (no code is fetched twice in a run), and every
record using that code renders the textual fallback in both the summary
strip (the description in parentheses) and the detail section (no image tag,
no `cid:` reference anywhere for that record's content identifier). -/
theorem c4_failed_fetch_fallback (ifetch : String → Option String)
    (records : List DailyForecastRecord) (city : String)
    (hcodes : ∀ r ∈ records, ∀ c : Int, r.icon = some c → (zfill2 (toString c)).length = 2)
    (c : Int) (hc0 : c ≠ 0) (hfail : ifetch (zfill2 (toString c)) = none) :
    (∀ x, (renderForecast ifetch records city).fetches.count x ≤ 1) ∧
    ∀ r ∈ records, r.icon = some c →
      HtmlPiece.summaryFallback r.day_name r.weather_desc ∈
        (renderForecast ifetch records city).pieces ∧
      HtmlPiece.detail r (ImgTag.unavailableDesc r.weather_desc) ∈
        (renderForecast ifetch records city).pieces ∧
      mkCid r.date_str (zfill2 (toString c)) ∉
        refCids (renderForecast ifetch records city).pieces ∧
      renderImgTag (ImgTag.unavailableDesc r.weather_desc) =
        "(" ++ r.weather_desc ++ " - icon unavailable)" ∧
      renderSummaryFallback r.day_name r.weather_desc =
        "<div class=\"summary-item\"><div class=\"summary-day\">" ++ r.day_name ++
          "</div>(" ++ r.weather_desc ++ ")</div>" := by
  have hinv := renderForecast_inv ifetch records city
  have hinitC : CacheOk ifetch (⟨[], [], [], []⟩ : RenderSt).cache :=
    (summaryInv_init ifetch records).cacheOk
  constructor
  · intro x
    rw [renderForecast_fetches]
    exact List.nodup_iff_count_le_one.mp hinv.nodupFetches x
  · intro r hr hic
    refine ⟨?_, ?_, ?_, rfl, rfl⟩
    · exact renderForecast_summary_pieces_mem ifetch records city _
        (summaryFold_fallback_mem ifetch records ⟨[], [], [], []⟩ hinitC r hr c hic hc0 hfail)
    · have hdt := detailTag_failed ifetch (summaryState ifetch records).cache r c
        hinv.cacheOk hic hc0 hfail
      have hmem := renderForecast_detail_mem ifetch records city r hr
      rw [hdt] at hmem
      exact hmem
    · rw [renderForecast_refCids]
      intro hmem
      rcases List.mem_append.mp hmem with hx | hx
      · rcases List.mem_flatMap.mp hx with ⟨piece, hpiece, href⟩
        rcases hinv.pieceProv piece hpiece _ href with ⟨r', hr', c', hic', hc0', heq, b, hf', hb⟩
        rcases mkCid_inj _ _ _ _
          (by rw [hcodes r hr c hic, hcodes r' hr' c' hic']) heq with ⟨_, hcs⟩
        rw [← hcs, hfail] at hf'
        exact Option.noConfusion hf'
      · rcases detail_ref_char _ records _ hx with ⟨r', hr', c', b, hic', hc0', hlk, hb, heq⟩
        have hf' : ifetch (zfill2 (toString c')) = some b := hinv.cacheOk _ _ hlk
        rcases mkCid_inj _ _ _ _
          (by rw [hcodes r hr c hic, hcodes r' hr' c' hic']) heq with ⟨_, hcs⟩
        rw [← hcs, hfail] at hf'
        exact Option.noConfusion hf'

/-- C4 witness: one record with icon code 1 whose fetch fails. -/
theorem c4_failed_fetch_fallback_witness :
    ((fun _ : String => (none : Option String)) (zfill2 (toString (1 : Int))) = none) ∧
    ((∀ x, (renderForecast (fun _ => none)
      [⟨"Sunny", some 1, 0, 0, 0, "N/A", "N/A", "N/A", 0, 0, "N/A", "N/A", "N/A", none,
        "d1", "Mon"⟩] "Springfield").fetches.count x ≤ 1) ∧
    ∀ r ∈ ([⟨"Sunny", some 1, 0, 0, 0, "N/A", "N/A", "N/A", 0, 0, "N/A", "N/A", "N/A", none,
        "d1", "Mon"⟩] : List DailyForecastRecord), r.icon = some 1 →
      HtmlPiece.summaryFallback r.day_name r.weather_desc ∈ (renderForecast (fun _ => none)
        [⟨"Sunny", some 1, 0, 0, 0, "N/A", "N/A", "N/A", 0, 0, "N/A", "N/A", "N/A", none,
          "d1", "Mon"⟩] "Springfield").pieces ∧
      HtmlPiece.detail r (ImgTag.unavailableDesc r.weather_desc) ∈ (renderForecast (fun _ => none)
        [⟨"Sunny", some 1, 0, 0, 0, "N/A", "N/A", "N/A", 0, 0, "N/A", "N/A", "N/A", none,
          "d1", "Mon"⟩] "Springfield").pieces ∧
      mkCid r.date_str (zfill2 (toString (1 : Int))) ∉ refCids ((renderForecast (fun _ => none)
        [⟨"Sunny", some 1, 0, 0, 0, "N/A", "N/A", "N/A", 0, 0, "N/A", "N/A", "N/A", none,
          "d1", "Mon"⟩] "Springfield").pieces) ∧
      renderImgTag (ImgTag.unavailableDesc r.weather_desc) =
        "(" ++ r.weather_desc ++ " - icon unavailable)" ∧
      renderSummaryFallback r.day_name r.weather_desc =
        "<div class=\"summary-item\"><div class=\"summary-day\">" ++ r.day_name ++
          "</div>(" ++ r.weather_desc ++ ")</div>") :=
  ⟨rfl, c4_failed_fetch_fallback (fun _ => none) _ "Springfield"
    (by
      intro r hr c hic
      fin_cases hr
      injection hic with h2
      subst h2
      decide)
    1 (by decide) rfl⟩
